import Mathlib

/-!
# environ: typed loading and validation of environment variables

A shallow embedding of the Go package `environ` (files `error.go`,
`validation.go`, `variable.go`, `primitive.go`) together with theorems about
its validation and resolution pipeline.

Conventions of the embedding:

* a Go function returning `(T, error)` returns an `Outcome T`: either the pair
  that the function returns, or the run-time panic that stops it;
* Go's `error` values are `GoError`s: the package's sentinels, errors built by
  the caller, and `fmt.Errorf` wrappers around exactly one `%w` operand;
* the type parameter `T` of `Variable[T]` is a Lean type with a `GoValue`
  instance, which gives its zero value, Go's `==`, boxing into `any` and the
  type assertion `any(x).(T)`;
* functions that the package imports from elsewhere (`as.Int`, `as.Float`,
  `as.Bool`, `url.ParseRequestURI`, `mail.ParseAddress`) are the fields of a
  `Lib` record that every function of the package receives, so that the
  theorems hold for every behaviour of these functions; `specLib` gives them
  as the specification describes them, for evaluation on concrete inputs;
* the process environment read by `os.LookupEnv` is an `Env`;
* the verb `%q` of `fmt` is a function `quote` that `Variable.Load` and `load`
  receive; `goQuote`, `goParseRequestURI` and `goParseAddress` describe
  functions of Go's standard library, with what they leave open in a `GoStd`
  record, and `goLib` is the library made of them;
* the struct that `load` fills is inspected by package `tiq`; its fields are
  `Field` records and the struct itself is the list of the writes made into it.
-/

namespace Environ

/-! ## Values -/

/-- Go `float64`, represented by its IEEE 754 binary64 bit pattern
(sign bit, 11 exponent bits, 52 fraction bits). -/
structure Float64 where
  bits : Nat
deriving DecidableEq, Repr

/-- NaN: all exponent bits set and a non-zero fraction. -/
def Float64.isNaN (f : Float64) : Bool :=
  (f.bits / 2 ^ 52) % 2048 == 2047 && f.bits % 2 ^ 52 != 0

/-- Positive or negative zero. -/
def Float64.isZero (f : Float64) : Bool :=
  f.bits % 2 ^ 63 == 0

/-- Go `==` on `float64`: NaN equals nothing, the two zeros are equal. -/
def Float64.eq (a b : Float64) : Bool :=
  !a.isNaN && !b.isNaN && (a.bits == b.bits || (a.isZero && b.isZero))

/-- A Go interface value of type `any`, restricted to the dynamic types that
the package itself produces: `string`, `int`, `float64`, `bool`, and `nil`. -/
inductive Any where
  | nil
  | str (s : String)
  | int (n : Int)
  | float (f : Float64)
  | bool (b : Bool)
deriving DecidableEq, Repr

/-- Go `==` on interface values: equal dynamic types and equal values. -/
def Any.eq : Any → Any → Bool
  | .nil, .nil => true
  | .str a, .str b => a == b
  | .int a, .int b => a == b
  | .float a, .float b => Float64.eq a b
  | .bool a, .bool b => a == b
  | _, _ => false

/-- What the package needs of the type parameter `T` of `Variable[T comparable]`:
`zero` is `*new(T)`, `eq` is `==`, `box x` is `any(x)`, and `assert a` is the
type assertion `a.(T)`, which is `none` when it panics. -/
class GoValue (T : Type) where
  zero : T
  eq : T → T → Bool
  box : T → Any
  assert : Any → Option T

instance instGoValueString : GoValue String where
  zero := ""
  eq a b := a == b
  box s := Any.str s
  assert a := match a with
    | Any.str s => some s
    | _ => none

instance instGoValueInt : GoValue Int where
  zero := 0
  eq a b := a == b
  box n := Any.int n
  assert a := match a with
    | Any.int n => some n
    | _ => none

instance instGoValueFloat64 : GoValue Float64 where
  zero := ⟨0⟩
  eq a b := Float64.eq a b
  box f := Any.float f
  assert a := match a with
    | Any.float f => some f
    | _ => none

instance instGoValueBool : GoValue Bool where
  zero := false
  eq a b := a == b
  box b := Any.bool b
  assert a := match a with
    | Any.bool b => some b
    | _ => none

/-- For `T = any` every type assertion succeeds and the zero value is `nil`. -/
instance instGoValueAny : GoValue Any where
  zero := Any.nil
  eq a b := Any.eq a b
  box a := a
  assert a := some a

/-! ## Errors (`error.go`) -/

/-- The sentinel errors declared in `error.go`. -/
inductive ErrKind where
  | InvalidPort
  | InvalidUrl
  | InvalidEmail
  | InvalidBool
  | InvalidInt
  | InvalidFloat
  | UnknownType
  | NotInOneof
  | MissingValue
  | MissingName
  | InvalidTag
  | SetField
  | UnsupportedType
  | Unexpected
deriving DecidableEq, Repr

/-- The text given to `errors.New` for each sentinel. -/
def ErrKind.text : ErrKind → String
  | .InvalidPort => "invalid port"
  | .InvalidUrl => "invalid url"
  | .InvalidEmail => "invalid email"
  | .InvalidBool => "invalid boolean value"
  | .InvalidInt => "invalid int"
  | .InvalidFloat => "invalid float"
  | .UnknownType => "unknown variable type"
  | .NotInOneof => "the value is not a possible choice"
  | .MissingValue => "missing required variable"
  | .MissingName => "missing variable name"
  | .InvalidTag => "invalid variable tag"
  | .SetField => "field is not settable"
  | .UnsupportedType => "unsupported variable type"
  | .Unexpected => "unexpected error"

/-- A Go `error` value.

* `sentinel k` is one of the package-level `errors.New` values;
* `custom id msg` is an error made by the caller (its identity is `id`);
* `wrapped pre inner post` is `fmt.Errorf` with one `%w` operand `inner`, the
  other operands already rendered into the text before and after it;
* `wrappedChoices inner choices` is
  `fmt.Errorf("%w. Available choices: %v", inner, choices)`, the choices kept
  as boxed values. -/
inductive GoError where
  | sentinel (k : ErrKind)
  | custom (id : Nat) (msg : String)
  | wrapped (pre : String) (inner : GoError) (post : String)
  | wrappedChoices (inner : GoError) (choices : List Any)
deriving DecidableEq, Repr

/-- The test `errors.Is(e, target)`: `target` is `e` or is reached from `e` by
unwrapping. Go compares error values by identity; here two errors are the same
when they are built alike, which for the sentinels and for the errors of
callers (told apart by their `id`) is identity. -/
def GoError.Is (e target : GoError) : Bool :=
  e == target ||
    match e with
    | .wrapped _ inner _ => inner.Is target
    | .wrappedChoices inner _ => inner.Is target
    | _ => false

/-- Whether `e` is of the built-in kind `k`: `errors.Is(e, Err<k>)`. -/
def GoError.isKind (e : GoError) (k : ErrKind) : Bool :=
  e.Is (.sentinel k)

/-- The verb `%v` applied to a boxed value; `fmtFloat` is the rendering of a
`float64`, which belongs to Go's `strconv`. -/
def Any.format (fmtFloat : Float64 → String) : Any → String
  | .nil => "<nil>"
  | .str s => s
  | .int n => toString n
  | .float f => fmtFloat f
  | .bool b => if b then "true" else "false"

/-- The verb `%v` applied to a slice: the elements separated by blanks, in
square brackets. -/
def formatSlice (fmtFloat : Float64 → String) (xs : List Any) : String :=
  "[" ++ " ".intercalate (xs.map (Any.format fmtFloat)) ++ "]"

/-- The method `Error()`: the message of an error. -/
def GoError.Error (fmtFloat : Float64 → String) : GoError → String
  | .sentinel k => k.text
  | .custom _ msg => msg
  | .wrapped pre inner post => pre ++ inner.Error fmtFloat ++ post
  | .wrappedChoices inner choices =>
      inner.Error fmtFloat ++ ". Available choices: " ++ formatSlice fmtFloat choices

/-- The value carried by a run-time panic: a failed type assertion, or the
error passed to `panic`. -/
inductive PanicValue where
  | typeAssertion
  | error (e : GoError)
deriving DecidableEq, Repr

/-- The outcome of a call of a Go function with results `(T, error)`: the two
results (a `nil` error is `none`), or a panic. -/
inductive Outcome (T : Type) where
  | ret (value : T) (err : Option GoError)
  | panic (p : PanicValue)
deriving DecidableEq, Repr

/-! ## External collaborators -/

/-- The functions that `validation.go` imports from other packages. Each
returns its value, or the message of the error it returns. -/
structure Lib where
  /-- Go: `as.Int` applied to a string -/
  asInt : String → Except String Int
  /-- Go: `as.Float` applied to a string -/
  asFloat : String → Except String Float64
  /-- Go: `as.Bool` applied to a string -/
  asBool : String → Except String Bool
  /-- Go: `url.ParseRequestURI`; only its error is used, `none` is success -/
  parseRequestURI : String → Option String
  /-- Go: `mail.ParseAddress`; only its error is used, `none` is success -/
  parseAddress : String → Option String

/-- The process environment as `os.LookupEnv` sees it: `none` when the key is
not set. -/
abbrev Env := String → Option String

/-! ## Validators (`validation.go`) -/

/-- Go: `validateInt`. -/
def validateInt (L : Lib) (v : String) : Int × Option GoError :=
  match L.asInt v with
  | .error err =>
      (0, some (.wrapped "" (.sentinel .InvalidInt)
        (". unable to parse '" ++ v ++ "' as integer: " ++ err)))
  | .ok i => (i, none)

/-- Go: `validateFloat`. -/
def validateFloat (L : Lib) (v : String) : Float64 × Option GoError :=
  match L.asFloat v with
  | .error err =>
      (⟨0⟩, some (.wrapped "" (.sentinel .InvalidFloat)
        (". unable to parse '" ++ v ++ "' as float: " ++ err)))
  | .ok f => (f, none)

/-- Go: `validateBoolean`. -/
def validateBoolean (L : Lib) (v : String) : Bool × Option GoError :=
  match L.asBool v with
  | .error err =>
      (false, some (.wrapped "" (.sentinel .InvalidBool)
        (". unable to parse '" ++ v ++ "' as boolean: " ++ err)))
  | .ok b => (b, none)

/-- Go: `validatePort`. -/
def validatePort (L : Lib) (v : String) : Int × Option GoError :=
  match L.asInt v with
  | .error err =>
      (0, some (.wrapped "" (.sentinel .InvalidPort)
        (". unable to parse '" ++ v ++ "' as integer: " ++ err)))
  | .ok port =>
      if port < 1 ∨ port > 65535 then
        (0, some (.wrapped "" (.sentinel .InvalidPort)
          (". " ++ toString port ++ " is out of range (1-65535)")))
      else
        (port, none)

/-- Go: `validateUrl`. -/
def validateUrl (L : Lib) (v : String) : String × Option GoError :=
  if v = "" then
    ("", some (.wrapped "" (.sentinel .InvalidUrl) ". empty string"))
  else
    match L.parseRequestURI v with
    | some err =>
        ("", some (.wrapped "" (.sentinel .InvalidUrl)
          (". unable to parse '" ++ v ++ "' as URL: " ++ err)))
    | none => (v, none)

/-- Go: `validateEmail`. -/
def validateEmail (L : Lib) (v : String) : String × Option GoError :=
  if v = "" then
    ("", some (.wrapped "" (.sentinel .InvalidEmail) ". empty string"))
  else
    match L.parseAddress v with
    | some err =>
        ("", some (.wrapped "" (.sentinel .InvalidEmail)
          (". unable to parse '" ++ v ++ "' as email address: " ++ err)))
    | none => (v, none)

/-- The statement `return any(x).(T), err` of `validateType`: the assertion is
evaluated whatever `err` is, and panics when the dynamic type of `x` is not
`T`. -/
def assertReturn {T : Type} [GoValue T] (x : Any) (err : Option GoError) : Outcome T :=
  match GoValue.assert x with
  | some y => .ret y err
  | none => .panic .typeAssertion

/-- Go: `validateType`. The type name `t` is compared with the values that
`variable.go` gives to `TypeString`, `TypeInt`, `TypeFloat`, `TypeBoolean`,
`TypePort`, `TypeUrl`, `TypeEmail`, and with the aliases written in the
`switch`. -/
def validateType {T : Type} [GoValue T] (L : Lib) (t : String) (v : String) : Outcome T :=
  if t = "string" ∨ t = "str" ∨ t = "" then
    assertReturn (.str v) none
  else if t = "int" ∨ t = "integer" then
    assertReturn (.int (validateInt L v).1) (validateInt L v).2
  else if t = "float" then
    assertReturn (.float (validateFloat L v).1) (validateFloat L v).2
  else if t = "boolean" ∨ t = "bool" then
    assertReturn (.bool (validateBoolean L v).1) (validateBoolean L v).2
  else if t = "port" then
    assertReturn (.int (validatePort L v).1) (validatePort L v).2
  else if t = "url" then
    assertReturn (.str (validateUrl L v).1) (validateUrl L v).2
  else if t = "email" then
    assertReturn (.str (validateEmail L v).1) (validateEmail L v).2
  else
    .ret GoValue.zero
      (some (.wrapped "Err: " (.sentinel .UnknownType) (". Reason: unknown type '" ++ t ++ "'")))

/-! ## Variables (`variable.go`) -/

/-- Go: `Variable[T]` (the field `Type` is written `Type_`). `Default` is a pointer (`none` is `nil`); `Validator` is
a function value (`none` is `nil`) returning its two results. -/
structure Variable (T : Type) where
  Name : String
  Type_ : String
  Default : Option T
  Optional : Bool
  Description : String
  Oneof : List T
  Validator : Option (T → T × Option GoError)

/-- Go: `slices.Contains`, with the `==` of `T`. -/
def slicesContains {T : Type} [GoValue T] (xs : List T) (x : T) : Bool :=
  xs.any (fun y => GoValue.eq x y)

/-- Go: `validate`. -/
def validate {T : Type} [GoValue T] (L : Lib) (variable_ : Variable T) (value : String) :
    Outcome T :=
  match validateType L variable_.Type_ value with
  | .panic p => .panic p
  | .ret _ (some err) => .ret GoValue.zero (some err)
  | .ret validated none =>
      if variable_.Oneof.length > 0 ∧ ¬ slicesContains variable_.Oneof validated then
        .ret GoValue.zero
          (some (.wrappedChoices (.sentinel .NotInOneof) (variable_.Oneof.map GoValue.box)))
      else
        .ret validated none

/-- Go: `os.LookupEnv`: the value of the key and whether the key is set. -/
def LookupEnv (env : Env) (key : String) : String × Bool :=
  match env key with
  | some value => (value, true)
  | none => ("", false)

/-- Go: `loadVariable`, reading the environment `env`. -/
def loadVariable {T : Type} [GoValue T] (L : Lib) (env : Env) (variable_ : Variable T) :
    Outcome T :=
  if variable_.Name = "" then
    .ret GoValue.zero (some (.sentinel .MissingName))
  else if (LookupEnv env variable_.Name).2 = false ∨ (LookupEnv env variable_.Name).1 = "" then
    match variable_.Default with
    | some d => .ret d none
    | none =>
        if variable_.Optional then .ret GoValue.zero none
        else .ret GoValue.zero (some (.sentinel .MissingValue))
  else
    match validate L variable_ (LookupEnv env variable_.Name).1 with
    | .panic p => .panic p
    | .ret _ (some err) => .ret GoValue.zero (some err)
    | .ret validated none =>
        match variable_.Validator with
        | none => .ret validated none
        | some f =>
            match f validated with
            | (_, some err) => .ret GoValue.zero (some err)
            | (validated2, none) => .ret validated2 none

/-- The outcome of a call of a Go function with the single result `T`: the
result, or a panic. -/
inductive Outcome1 (T : Type) where
  | val (value : T)
  | panic (p : PanicValue)
deriving DecidableEq, Repr

/-- Go: `Variable[T].Load`. The function `quote` is the verb `%q` of `fmt`
applied to a string. -/
def Variable.Load {T : Type} [GoValue T] (quote : String → String) (L : Lib) (env : Env)
    (v : Variable T) : Outcome T :=
  match loadVariable L env v with
  | .panic p => .panic p
  | .ret _ (some err) =>
      .ret GoValue.zero
        (some (.wrapped ("Err: variable " ++ quote v.Name ++ ". Reason: ") err ""))
  | .ret validated none => .ret validated none

/-- Go: `Variable[T].MustLoad`. -/
def Variable.MustLoad {T : Type} [GoValue T] (quote : String → String) (L : Lib) (env : Env)
    (v : Variable T) : Outcome1 T :=
  match v.Load quote L env with
  | .panic p => .panic p
  | .ret _ (some err) => .panic (.error err)
  | .ret validated none => .val validated

/-- Go: `VariableBuilder[T]`, the struct that embeds a `Variable[T]`. -/
structure VariableBuilder (T : Type) where
  Variable : Variable T

/-- Go: `VariableBuilder[T].Optional`. The receiver `vb` is passed by value:
the method changes its own copy and returns it. -/
def VariableBuilder.Optional {T : Type} (vb : VariableBuilder T) : VariableBuilder T :=
  { vb with Variable := { vb.Variable with Optional := true } }

/-- Go: `VariableBuilder[T].Oneof`, the variadic `choices` being the slice of
the arguments. -/
def VariableBuilder.Oneof {T : Type} (vb : VariableBuilder T) (choices : List T) :
    VariableBuilder T :=
  { vb with Variable := { vb.Variable with Oneof := choices } }

/-- Go: `VariableBuilder[T].Default`, which stores `&value`. -/
def VariableBuilder.Default {T : Type} (vb : VariableBuilder T) (value : T) :
    VariableBuilder T :=
  { vb with Variable := { vb.Variable with Default := some value } }

/-- Go: `VariableBuilder[T].Desc`. -/
def VariableBuilder.Desc {T : Type} (vb : VariableBuilder T) (desc : String) :
    VariableBuilder T :=
  { vb with Variable := { vb.Variable with Description := desc } }

/-- Go: `VariableBuilder[T].Validate`; the `validator` may be `nil` (`none`). -/
def VariableBuilder.Validate {T : Type} (vb : VariableBuilder T)
    (validator : Option (T → T × Option GoError)) : VariableBuilder T :=
  { vb with Variable := { vb.Variable with Validator := validator } }

/-! ## Constructors (`primitive.go`)

The constructors are in the namespace `Primitive`, their names being those of
types. A field that the composite literal does not give has its zero value. -/

/-- Go: `Url`. -/
def Primitive.Url (name : String) : VariableBuilder String :=
  ⟨⟨name, "url", none, false, "", [], none⟩⟩

/-- Go: `Email`. -/
def Primitive.Email (name : String) : VariableBuilder String :=
  ⟨⟨name, "email", none, false, "", [], none⟩⟩

/-- Go: `Float`. -/
def Primitive.Float (name : String) : VariableBuilder Float64 :=
  ⟨⟨name, "float", none, false, "", [], none⟩⟩

/-- Go: `Boolean`. -/
def Primitive.Boolean (name : String) : VariableBuilder Bool :=
  ⟨⟨name, "boolean", none, false, "", [], none⟩⟩

/-- Go: `Port`. -/
def Primitive.Port (name : String) : VariableBuilder Int :=
  ⟨⟨name, "port", none, false, "", [], none⟩⟩

/-- Go: `Int`. -/
def Primitive.Int (name : String) : VariableBuilder Int :=
  ⟨⟨name, "int", none, false, "", [], none⟩⟩

/-- Go: `String`. -/
def Primitive.String (name : String) : VariableBuilder String :=
  ⟨⟨name, "string", none, false, "", [], none⟩⟩

/-! ## Loading a struct (`environ.go`)

The package `tiq` inspects the target struct. What `load` uses of it is kept
here: for each field its name, the result of `tiq.Parse[Variable[any]]` on it,
and its method `SetFrom`. -/

/-- The error of `tiq.Parse`: one for which `errors.Is(err, tiq.ErrCompileTag)`
holds, or another one; `msg` is its message. -/
inductive ParseFailure where
  | compileTag (msg : String)
  | other (msg : String)
deriving DecidableEq, Repr

/-- A field of the target struct, as `inspector.Fields()` gives it. `SetFrom`
is the message of the error that `field.SetFrom(value)` returns, `none` when
the value is written into the field. -/
structure Field where
  Name : String
  parsed : Except ParseFailure (Variable Any)
  SetFrom : Any → Option String

/-- The target struct `t`, as the list of the writes made into it, in order:
the name of the field and the value that its `SetFrom` accepted. A field that
is in no pair holds its zero value. -/
abbrev Struct := List (String × Any)

/-- The loop `for _, field := range inspector.Fields()` of `load`, from the
struct `t` reached so far. -/
def loadFields (quote : String → String) (L : Lib) (env : Env) :
    List Field → Struct → Outcome Struct
  | [], t => .ret t none
  | field :: rest, t =>
      match field.parsed with
      | .error (.compileTag msg) =>
          .ret t (some (.wrapped "" (.sentinel .InvalidTag)
            (" for field " ++ quote field.Name ++ ": " ++ msg)))
      | .error (.other msg) =>
          .ret t (some (.wrapped "" (.sentinel .Unexpected)
            (" for field " ++ quote field.Name ++ ": " ++ msg)))
      | .ok variable_ =>
          if variable_.Name = "" then loadFields quote L env rest t
          else
            match variable_.Load quote L env with
            | .panic p => .panic p
            | .ret _ (some err) => .ret t (some err)
            | .ret value none =>
                if value = Any.nil then loadFields quote L env rest t
                else
                  match field.SetFrom value with
                  | some msg =>
                      .ret t (some (.wrapped "" (.sentinel .SetField)
                        (" for field " ++ quote field.Name ++ ": " ++ msg)))
                  | none => loadFields quote L env rest (t ++ [(field.Name, value)])

/-- Go: `load`. The argument `inspected` is the result of `tiq.Inspect(&t)`:
the message of its error, or the fields of the struct. -/
def load (quote : String → String) (L : Lib) (env : Env)
    (inspected : Except String (List Field)) : Outcome Struct :=
  match inspected with
  | .error msg => .ret [] (some (.wrapped "" (.sentinel .UnsupportedType) (": " ++ msg)))
  | .ok fields => loadFields quote L env fields []

/-- Go: `Load` of `environ.go`. -/
def Load (quote : String → String) (L : Lib) (env : Env)
    (inspected : Except String (List Field)) : Outcome Struct :=
  load quote L env inspected

/-- Go: `MustLoad` of `environ.go`. -/
def MustLoad (quote : String → String) (L : Lib) (env : Env)
    (inspected : Except String (List Field)) : Outcome1 Struct :=
  match load quote L env inspected with
  | .panic p => .panic p
  | .ret _ (some err) => .panic (.error err)
  | .ret t none => .val t

/-- The value that the field `name` holds in the struct `t`: the last value
written into it, `none` for its zero value. -/
def Struct.field (t : Struct) (name : String) : Option Any :=
  (t.reverse.lookup name)

/-- The writes of one turn of the loop of `load` that ends without error:
`none` when the turn ends the loop (the field does not parse, its variable does
not resolve, or its value is not accepted by `SetFrom`), else the write that
the turn makes, if any. -/
def Field.write (quote : String → String) (L : Lib) (env : Env) (g : Field) :
    Option Struct :=
  match g.parsed with
  | .error _ => none
  | .ok w =>
      if w.Name = "" then some []
      else
        match w.Load quote L env with
        | .ret y none =>
            if y = Any.nil then some []
            else if g.SetFrom y = none then some [(g.Name, y)] else none
        | _ => none

/-- The writes of the turns of the loop of `load` on the given fields. -/
def writes (quote : String → String) (L : Lib) (env : Env) (fields : List Field) : Struct :=
  (fields.filterMap (fun g => g.write quote L env)).flatten

/-! ## Vocabulary of the statements -/

/-- The call returned an error of kind `k` (in the sense of `errors.Is`). -/
def Outcome.failsWith {T : Type} (o : Outcome T) (k : ErrKind) : Bool :=
  match o with
  | .ret _ (some e) => e.isKind k
  | _ => false

/-- The call returned (a value, an error, or both) rather than panicked. -/
def Outcome.returns {T : Type} (o : Outcome T) : Bool :=
  match o with
  | .ret _ _ => true
  | .panic _ => false

/-- A call of one of the five methods of a builder, with its argument. -/
inductive BuilderCall (T : Type) where
  | Optional
  | Oneof (choices : List T)
  | Default (value : T)
  | Desc (desc : String)
  | Validate (validator : Option (T → T × Option GoError))

/-- The builder that the call `c` on the builder `vb` returns. -/
def VariableBuilder.call {T : Type} (vb : VariableBuilder T) : BuilderCall T →
    VariableBuilder T
  | .Optional => vb.Optional
  | .Oneof choices => vb.Oneof choices
  | .Default value => vb.Default value
  | .Desc desc => vb.Desc desc
  | .Validate validator => vb.Validate validator

/-- The builder at the end of a chain of calls, as in
`Int("PORT").Default(80).Oneof(80, 443)`. -/
def VariableBuilder.chain {T : Type} (vb : VariableBuilder T)
    (calls : List (BuilderCall T)) : VariableBuilder T :=
  calls.foldl VariableBuilder.call vb

/-- The environment holds no value for the key: the key is not set, or it is
set to the empty string. -/
def noValue (env : Env) (key : String) : Prop :=
  env key = none ∨ env key = some ""

/-- The six literals that the specification gives for a boolean. -/
def booleanLiterals : List String :=
  ["true", "false", "1", "0", "on", "off"]

/-- The eleven type names that the `switch` of `validateType` lists. -/
def recognisedTypes : List String :=
  ["string", "str", "", "int", "integer", "float", "boolean", "bool", "port", "url", "email"]

/-- The kinds that the built-in validation of a raw value can report. -/
def validationKinds : List ErrKind :=
  [.InvalidInt, .InvalidFloat, .InvalidBool, .InvalidPort, .InvalidUrl, .InvalidEmail,
    .UnknownType, .NotInOneof]

/-- The kinds that the resolution of a variable can report. -/
def resolutionKinds : List ErrKind :=
  [.MissingName, .MissingValue, .InvalidInt, .InvalidFloat, .InvalidBool, .InvalidPort,
    .InvalidUrl, .InvalidEmail, .UnknownType, .NotInOneof]

/-- The type names whose validated value is an int, a float or a bool. -/
def nonStringTypes : List String :=
  ["int", "integer", "float", "boolean", "bool", "port"]

/-! ## A library of parsers following the specification

The parsers below stand for the imported functions when the embedding is
evaluated on concrete inputs. -/

/-- The number written by a list of decimal digits. -/
def digitsValue (ds : List Char) : Nat :=
  ds.foldl (fun acc c => 10 * acc + (c.toNat - 48)) 0

/-- A non-empty list of decimal digits. -/
def allDigits (ds : List Char) : Bool :=
  !ds.isEmpty && ds.all Char.isDigit

/-- Splits an optional leading sign off a literal: whether it is negative, and
the rest. -/
def splitSign (cs : List Char) : Bool × List Char :=
  match cs with
  | '-' :: rest => (true, rest)
  | '+' :: rest => (false, rest)
  | _ => (false, cs)

/-- Modelled from the spec: `as.Int` of package `github.com/AnatoleLucet/as`,
which is not among the sources. Spec 4.1: "parse as base-10 signed integer;
fails ... if not parseable". A literal is an optional sign followed by one or
more decimal digits, and its value has to fit the 64-bit Go `int`. The wording
of the diagnostic is not specified. -/
def asInt (v : String) : Except String Int :=
  let sd := splitSign v.toList
  if allDigits sd.2 then
    let n : Int := if sd.1 then -(digitsValue sd.2 : Int) else (digitsValue sd.2 : Int)
    if -(2 ^ 63 : Int) ≤ n ∧ n < (2 ^ 63 : Int) then .ok n
    else .error "value out of range"
  else
    .error "invalid syntax"

/-- Modelled from the spec: `as.Bool` of package `github.com/AnatoleLucet/as`,
which is not among the sources. Spec 4.1: "accepts case-sensitive literals
true, false, 1, 0, on, off ...; fails ... otherwise". -/
def asBool (v : String) : Except String Bool :=
  if v = "true" ∨ v = "1" ∨ v = "on" then .ok true
  else if v = "false" ∨ v = "0" ∨ v = "off" then .ok false
  else .error "invalid syntax"

/-- The binary64 pattern (sign bit clear) nearest to the rational `m / d`,
ties to even; `none` when the value is too large for a finite `float64`. -/
def roundToBinary64 (m d : Nat) : Option Nat :=
  if m = 0 then some 0
  else
    let e0 : Int := (Nat.log2 m : Int) - (Nat.log2 d : Int) - 52
    let scaled : Int → Nat × Nat := fun e =>
      if e < 0 then (m * 2 ^ (-e).toNat, d) else (m, d * 2 ^ e.toNat)
    let e1 : Int := if (scaled e0).1 / (scaled e0).2 < 2 ^ 52 then e0 - 1 else e0
    let e : Int := if e1 < -1074 then -1074 else e1
    let num := (scaled e).1
    let den := (scaled e).2
    let q := num / den
    let r := num % den
    let q1 := if 2 * r > den ∨ (2 * r = den ∧ q % 2 = 1) then q + 1 else q
    let bits : Int := (e + 1075) * 2 ^ 52 + (q1 : Int) - 2 ^ 52
    if bits < 2047 * 2 ^ 52 then some bits.toNat else none

/-- Modelled from the spec: `as.Float` of package `github.com/AnatoleLucet/as`,
which is not among the sources. Spec 4.1: "parse as signed decimal; fails ...
if not parseable". A literal is an optional sign, one or more digits and
optionally a point followed by one or more digits; the result is the nearest
`float64`. -/
def asFloat (v : String) : Except String Float64 :=
  let sd := splitSign v.toList
  let whole := sd.2.takeWhile (fun c => c != '.')
  let rest := sd.2.dropWhile (fun c => c != '.')
  let frac := rest.drop 1
  if allDigits whole ∧ (rest = [] ∨ allDigits frac) then
    match roundToBinary64 (digitsValue (whole ++ frac)) (10 ^ frac.length) with
    | some bits => .ok ⟨if sd.1 then bits + 2 ^ 63 else bits⟩
    | none => .error "value out of range"
  else
    .error "invalid syntax"

/-- A character allowed in a URI scheme after its first letter. -/
def isSchemeChar (c : Char) : Bool :=
  c.isAlpha || c.isDigit || c == '+' || c == '-' || c == '.'

/-- Modelled from the spec: `url.ParseRequestURI` of Go's `net/url`, which is
not among the sources. Spec 4.1: "require the value be parseable as an absolute
URI with a scheme and authority". The value is `scheme://authority...` with a
scheme that starts with a letter, a non-empty authority (up to the first `/`,
`?` or `#`) and no blank or control character. The result is the error
message, `none` on success. -/
def parseRequestURI (v : String) : Option String :=
  let cs := v.toList
  let scheme := cs.takeWhile (fun c => c != ':')
  let rest := cs.dropWhile (fun c => c != ':')
  match scheme, rest with
  | c :: more, ':' :: '/' :: '/' :: after =>
      let authority := after.takeWhile (fun x => x != '/' && x != '?' && x != '#')
      if c.isAlpha && more.all isSchemeChar && !authority.isEmpty
          && cs.all (fun x => x.toNat > 32 && x.toNat != 127) then none
      else some "invalid URI for request"
  | _, _ => some "invalid URI for request"

/-- Modelled from the spec: `mail.ParseAddress` of Go's `net/mail`, which is
not among the sources. Spec 4.1: "require a syntactically valid single email
address (local-part@domain)". The value has exactly one `@`, with a non-empty
part on either side, and no blank or control character. The result is the error
message, `none` on success. -/
def parseAddress (v : String) : Option String :=
  let cs := v.toList
  let localPart := cs.takeWhile (fun c => c != '@')
  let rest := cs.dropWhile (fun c => c != '@')
  match rest with
  | '@' :: domain =>
      if !localPart.isEmpty && !domain.isEmpty && !domain.contains '@'
          && cs.all (fun x => x.toNat > 32 && x.toNat != 127) then none
      else some "invalid address"
  | _ => some "missing '@' or angle-addr"

/-- The imported functions as the specification describes them. -/
def specLib : Lib where
  asInt := asInt
  asFloat := asFloat
  asBool := asBool
  parseRequestURI := parseRequestURI
  parseAddress := parseAddress

/-! ## Functions of Go's standard library

The functions of `strconv`, `net/url` and `net/mail` that the package reaches
are described here as far as their behaviour is fixed by their documentation
and their code; a `GoStd` record holds what is left open, and every statement
made with it holds whatever the record is. -/

/-- What the descriptions below leave open.

* `escapeRune r` is the text that `strconv.Quote` writes for a rune that is a
  control character or is not ASCII (the rune itself, or an escape sequence);
* `parseAuthority a` is the result of `parseAuthority` of `net/url` on the
  authority `a`: the message of its error, `none` on success;
* `otherAddress v` is the result of `mail.ParseAddress` on a string whose
  result is not settled by `goParseAddress`;
* `quoteCut esc` is the text that `strconv.Quote` writes for the first three
  bytes of the UTF-8 form of `esc`, a percent sign followed by at most two
  characters one of which is not ASCII. -/
structure GoStd where
  escapeRune : Char → String
  parseAuthority : String → Option String
  otherAddress : String → Option String
  quoteCut : String → String

/-- The double quote character. -/
def dquoteChar : Char := Char.ofNat 34

/-- The backslash character. -/
def backslashChar : Char := Char.ofNat 92

/-- Go: `strconv.Quote`, which the verb `%q` of `fmt` applies to a string: the
string in double quotes, with a backslash before each double quote and each
backslash; a printable ASCII character stands for itself. -/
def goQuote (S : GoStd) (s : String) : String :=
  String.singleton dquoteChar ++
    String.join (s.toList.map (fun r =>
      if r = dquoteChar ∨ r = backslashChar then
        String.singleton backslashChar ++ String.singleton r
      else if 32 ≤ r.toNat ∧ r.toNat ≤ 126 then String.singleton r
      else S.escapeRune r)) ++
    String.singleton dquoteChar

/-- Go: `getScheme` of `net/url`, after the bytes `seen` of `whole` were
passed: the scheme and the rest behind the colon, or no scheme and the whole
string. -/
def getSchemeFrom (whole : List Char) : List Char → List Char →
    Except String (List Char × List Char)
  | _, [] => .ok ([], whole)
  | seen, c :: cs =>
      if c.isAlpha then getSchemeFrom whole (seen ++ [c]) cs
      else if c.isDigit ∨ c = '+' ∨ c = '-' ∨ c = '.' then
        if seen = [] then .ok ([], whole) else getSchemeFrom whole (seen ++ [c]) cs
      else if c = ':' then
        if seen = [] then .error "missing protocol scheme" else .ok (seen, cs)
      else .ok ([], whole)

/-- Go: `ishex` of `net/url`. -/
def ishex (c : Char) : Bool :=
  c.isDigit || ('a' ≤ c && c ≤ 'f') || ('A' ≤ c && c ≤ 'F')

/-- Go: the check of `unescape` of `net/url` in the mode `encodePath`: the first
percent sign that is not followed by two hexadecimal digits, with the (at most
two) characters behind it. A character that is not ASCII is not a hexadecimal
digit, as its first byte is not. -/
def badEscape : List Char → Option (List Char)
  | [] => none
  | '%' :: a :: b :: more =>
      if ishex a && ishex b then badEscape more else some ['%', a, b]
  | '%' :: rest => some ('%' :: rest)
  | _ :: rest => badEscape rest

/-- Go: `parse(rawURL, true)` of `net/url`, the body of `url.ParseRequestURI`:
the message of the error, `none` on success. The raw URL is an absolute URI
or an absolute path. The message of a bad escape quotes the first three bytes
from the percent sign on: these are the percent sign and the two characters
behind it when they are ASCII; otherwise the bytes end inside a character, and
their quoted form is left open. -/
def parseViaRequest (S : GoStd) (rawURL : List Char) : Option String :=
  if rawURL.any (fun c => c.toNat < 32 || c.toNat == 127) then
    some "net/url: invalid control character in URL"
  else if rawURL = [] then some "empty url"
  else if rawURL = ['*'] then none
  else
    match getSchemeFrom rawURL [] rawURL with
    | .error err => some err
    | .ok (scheme, afterScheme) =>
        let rest := afterScheme.takeWhile (fun c => c != '?')
        if rest.head? ≠ some '/' then
          if scheme ≠ [] then none else some "invalid URI for request"
        else
          let hasAuthority : Bool := scheme ≠ [] ∧ (rest.drop 1).head? = some '/'
          let authority := (rest.drop 2).takeWhile (fun c => c != '/')
          let path := if hasAuthority then (rest.drop 2).dropWhile (fun c => c != '/') else rest
          match (if hasAuthority then S.parseAuthority (String.mk authority) else none) with
          | some err => some err
          | none =>
              match badEscape path with
              | some esc =>
                  if esc.all (fun c => c.toNat < 128) then
                    some ("invalid URL escape " ++ goQuote S (String.mk esc))
                  else some ("invalid URL escape " ++ S.quoteCut (String.mk esc))
              | none => none

/-- Go: `url.ParseRequestURI`; an error of `parse` is wrapped into a
`url.Error`, whose message is given. -/
def goParseRequestURI (S : GoStd) (rawURL : String) : Option String :=
  match parseViaRequest S rawURL.toList with
  | some err => some ("parse " ++ goQuote S rawURL ++ ": " ++ err)
  | none => none

/-- A non-empty run of ASCII letters, digits, `+`, `-` and `_`. -/
def isPlainAtom (cs : List Char) : Bool :=
  !cs.isEmpty && cs.all (fun c => c.isAlphanum || c == '+' || c == '-' || c == '_')

/-- Plain atoms separated by single dots. -/
def isPlainDotAtom (cs : List Char) : Bool :=
  (cs.splitOn '.').all isPlainAtom

/-- A bare address `local-part@domain` whose two parts are plain atoms
separated by dots. -/
def isPlainAddress (cs : List Char) : Bool :=
  match cs.splitOn '@' with
  | [localPart, domain] => isPlainDotAtom localPart && isPlainDotAtom domain
  | _ => false

/-- A display name of words of ASCII letters and digits separated by single
blanks, a blank, and a plain address in angle brackets. -/
def isPlainNameAddr (cs : List Char) : Bool :=
  let name := cs.takeWhile (fun c => c != '<')
  let rest := cs.dropWhile (fun c => c != '<')
  name.getLast? == some ' ' &&
    (name.dropLast.splitOn ' ').all (fun w => !w.isEmpty && w.all Char.isAlphanum) &&
    rest.head? == some '<' && rest.getLast? == some '>' &&
    isPlainAddress (rest.drop 1).dropLast

/-- Go: `mail.ParseAddress` of `net/mail`, which parses a single RFC 5322
address, "e.g. Barry Gibbs <bg@example.com>": the message of the error, `none`
on success. A plain address and a plain display name followed by a plain
address in angle brackets are accepted; a string without `@`, or that ends
with `@`, is rejected, as every address has a domain behind an `@`; a plain
address followed by a comma is rejected, the parser reading the address and
then finding the input not at its end. -/
def goParseAddress (S : GoStd) (v : String) : Option String :=
  if isPlainAddress v.toList ∨ isPlainNameAddr v.toList then none
  else if ¬ v.toList.contains '@' ∨ v.toList.getLast? = some '@' then
    some ((S.otherAddress v).getD "mail: no angle-addr")
  else if isPlainAddress (v.toList.takeWhile (fun c => c != ',')) then
    some ("mail: expected single address, got " ++
      goQuote S (String.mk (v.toList.dropWhile (fun c => c != ','))))
  else S.otherAddress v

/-- The reading of "a single bare email address of the form
local-part@domain": one `@` with a non-empty part on either side and neither
blank nor control character, which is what the specified `parseAddress`
accepts. -/
def isBareAddress (v : String) : Bool :=
  (parseAddress v).isNone

/-- The reading of "an absolute URI that has both a scheme and an
authority": what the specified `parseRequestURI` accepts. -/
def isAbsoluteURI (v : String) : Bool :=
  (parseRequestURI v).isNone

/-- The integer that a base-10 literal of the signed 64-bit type `int` writes:
an optional sign, one or more decimal digits, a value from `-2^63` to
`2^63 - 1`; `none` for every other string. -/
def intLiteral (v : String) : Option Int :=
  let magnitude : List Char → Option Nat := fun ds =>
    if ds ≠ [] ∧ ∀ c ∈ ds, c.isDigit = true then some (digitsValue ds) else none
  let inRange : Int → Option Int := fun n =>
    if -(2 ^ 63 : Int) ≤ n ∧ n < (2 ^ 63 : Int) then some n else none
  match v.toList with
  | '-' :: ds => (magnitude ds).bind (fun (m : Nat) => inRange (-(m : Int)))
  | '+' :: ds => (magnitude ds).bind (fun (m : Nat) => inRange (m : Int))
  | ds => (magnitude ds).bind (fun (m : Nat) => inRange (m : Int))

/-- The imported functions: those of Go's standard library as described above,
those of package `as` as the specification describes them. -/
def goLib (S : GoStd) : Lib where
  asInt := asInt
  asFloat := asFloat
  asBool := asBool
  parseRequestURI := goParseRequestURI S
  parseAddress := goParseAddress S

/-- A filling of the open parts, for evaluation on inputs that do not reach
them: runes are not escaped, every authority is accepted, the strings left
open are judged as the specification describes an email address, and a cut
escape is put between double quotes as it is. -/
def sampleStd : GoStd where
  escapeRune := fun r => String.singleton r
  parseAuthority := fun _ => none
  otherAddress := parseAddress
  quoteCut := fun esc => String.singleton dquoteChar ++ esc ++ String.singleton dquoteChar

/-! ## Sample inputs -/

/-- The environment in which no key is set. -/
def emptyEnv : Env := fun _ => none

/-- The environment in which `key` is set to `value` and no other key is. -/
def envOf (key value : String) : Env := fun k => if k = key then some value else none

/-- Go: `Variable[string]{Name: "TEST_VAR", Type: TypeString}` -/
def requiredString : Variable String :=
  ⟨"TEST_VAR", "string", none, false, "", [], none⟩

/-- Go: `Variable[string]{Name: "TEST_VAR", Type: TypeString, Default: &"from_default", Optional: true}` -/
def defaultAndOptional : Variable String :=
  ⟨"TEST_VAR", "string", some "from_default", true, "", [], none⟩

/-- Go: `Variable[int]{Name: "TEST_VAR", Type: TypeInt, Optional: true}` -/
def optionalInt : Variable Int :=
  ⟨"TEST_VAR", "int", none, true, "", [], none⟩

/-- Go: `Variable[int]{Name: "COUNT", Type: TypeInt, Default: &7}` -/
def countWithDefault : Variable Int :=
  ⟨"COUNT", "int", some 7, false, "", [], none⟩

/-- Go: `Variable[bool]{Name: "FLAG", Type: "bool", Default: &true}` -/
def flagWithDefault : Variable Bool :=
  ⟨"FLAG", "bool", some true, false, "", [], none⟩

/-- Go: `Variable[int]{Name: "PORT", Type: TypeInt, Oneof: []int{80, 443, 8080}}` -/
def portChoices : Variable Int :=
  ⟨"PORT", "int", none, false, "", [80, 443, 8080], none⟩

/-- Go: `Variable[int]{Name: "TEST_VAR", Type: TypeInt, Validator: f}` with
`f` returning `v * 2, nil`. -/
def doubled : Variable Int :=
  ⟨"TEST_VAR", "int", none, false, "", [], some (fun v => (v * 2, none))⟩

/-- Go: `customErr := errors.New("custom validation error")` -/
def customErr : GoError := .custom 1 "custom validation error"

/-- Go: `Variable[int]{Name: "TEST_VAR", Type: TypeInt, Validator: f}` with
`f` returning `0, customErr`. -/
def rejecting : Variable Int :=
  ⟨"TEST_VAR", "int", none, false, "", [], some (fun _ => (0, some customErr))⟩

/-- The descriptor that the tag `env:"name=APP_NAME, type=string"` gives. -/
def varAppName : Variable Any :=
  ⟨"APP_NAME", "string", none, false, "", [], none⟩

/-- The descriptor that the tag `env:"name=APP_PORT, type=int"` gives. -/
def varAppPort : Variable Any :=
  ⟨"APP_PORT", "int", none, false, "", [], none⟩

/-- The descriptor that the tag `env:"name=APP_TAGS, type=string"` gives. -/
def varAppTags : Variable Any :=
  ⟨"APP_TAGS", "string", none, false, "", [], none⟩

/-- The error that `Variable.Load` returns for APP_PORT when it has no value. -/
def portMissing : GoError :=
  .wrapped "Err: variable \"APP_PORT\". Reason: " (.sentinel .MissingValue) ""

/-- The field `Name string` with the tag `env:"name=APP_NAME, type=string"`. -/
def fieldName : Field :=
  ⟨"Name", .ok varAppName, fun _ => none⟩

/-- The field `Port int` with the tag `env:"name=APP_PORT, type=int"`. -/
def fieldPort : Field :=
  ⟨"Port", .ok varAppPort, fun _ => none⟩

/-- A field `Tags []int` with the tag `env:"name=APP_TAGS, type=string"`, whose
`SetFrom` cannot take the string. -/
def fieldTags : Field :=
  ⟨"Tags", .ok varAppTags, fun _ => some "cannot set value"⟩

/-- The field `Ignore string` without tag: its descriptor has no name. -/
def fieldIgnore : Field :=
  ⟨"Ignore", .ok ⟨"", "", none, false, "", [], none⟩, fun _ => none⟩

/-- The environment in which APP_NAME is "my-app" and APP_TAGS is "a". -/
def appEnv : Env :=
  fun k => if k = "APP_NAME" then some "my-app" else if k = "APP_TAGS" then some "a" else none

/-- Go: `Variable[int]{Name: "TEST_VAR", Type: TypePort}` -/
def requiredPort : Variable Int :=
  ⟨"TEST_VAR", "port", none, false, "", [], none⟩

/-- The error of `validatePort` for "abc" with the specified `as.Int`. -/
def portNotInt : GoError :=
  .wrapped "" (.sentinel .InvalidPort) ". unable to parse 'abc' as integer: invalid syntax"

/-- Go: `Variable[int]{Name: "TEST_VAR", Type: TypePort, Default: &0}` -/
def portDefaultZero : Variable Int :=
  ⟨"TEST_VAR", "port", some 0, false, "", [], none⟩

/-- Go: `Variable[int]{Name: "TEST_VAR", Type: "nonsense", Default: &5,
Oneof: []int{80, 443}, Validator: f}` with `f` returning `0, customErr`. -/
def oddDefault : Variable Int :=
  ⟨"TEST_VAR", "nonsense", some 5, false, "", [80, 443], some (fun _ => (0, some customErr))⟩

/-- Go: `Variable[int]{Name: "TEST_VAR", Type: TypeInt, Oneof: []int{10},
Validator: f}` with `f` returning `v * 2, nil`. -/
def tenDoubled : Variable Int :=
  ⟨"TEST_VAR", "int", none, false, "", [10], some (fun v => (v * 2, none))⟩

/-- The descriptor that the tag `env:"name=PORT, type=int, oneof=80|443"`
gives, with the choices held as strings. -/
def varPortChoices : Variable Any :=
  ⟨"PORT", "int", none, false, "", [Any.str "80", Any.str "443"], none⟩

/-- The kinds of the errors that `load` makes itself. -/
def structKinds : List ErrKind :=
  [.UnsupportedType, .InvalidTag, .Unexpected, .SetField]

/-- A field `Port` whose descriptor is
`Variable[any]{Name: "APP_PORT", Type: "port", Default: 3000}`. -/
def fieldPortDefault : Field :=
  ⟨"Port", .ok ⟨"APP_PORT", "port", some (Any.int 3000), false, "", [], none⟩, fun _ => none⟩

/-- The descriptor that the tag `env:"name=APP_PORT, type=int, optional"`
gives. -/
def varOptionalPort : Variable Any :=
  ⟨"APP_PORT", "int", none, true, "", [], none⟩

/-- A field `Port` with the tag `env:"name=APP_PORT, type=int, optional"`,
with a `SetFrom` that takes no value at all. -/
def fieldOptionalPort : Field :=
  ⟨"Port", .ok varOptionalPort, fun _ => some "cannot set value"⟩

/-- Go: `Variable[string]{Name: "", Type: TypeString}` -/
def namelessString : Variable String :=
  ⟨"", "string", none, false, "", [], none⟩

/-! ## Lemmas on errors and on the environment -/

/-- A sentinel is of its own kind only. -/
theorem isKind_sentinel (k k2 : ErrKind) :
    (GoError.sentinel k).isKind k2 = decide (k = k2) := by
  by_cases h : k = k2 <;> simp [GoError.isKind, GoError.Is, h]

/-- An error that wraps a sentinel is of the kind of that sentinel only. -/
theorem isKind_wrapped_sentinel (pre post : String) (k k2 : ErrKind) :
    (GoError.wrapped pre (.sentinel k) post).isKind k2 = decide (k = k2) := by
  by_cases h : k = k2 <;> simp [GoError.isKind, GoError.Is, h]

/-- A choices error that wraps a sentinel is of the kind of that sentinel only. -/
theorem isKind_wrappedChoices_sentinel (cs : List Any) (k k2 : ErrKind) :
    (GoError.wrappedChoices (.sentinel k) cs).isKind k2 = decide (k = k2) := by
  by_cases h : k = k2 <;> simp [GoError.isKind, GoError.Is, h]

/-- Looking up a key that is not set. -/
theorem lookupEnv_none {env : Env} {key : String} (h : env key = none) :
    LookupEnv env key = ("", false) := by
  simp [LookupEnv, h]

/-- Looking up a key that is set. -/
theorem lookupEnv_some {env : Env} {key value : String} (h : env key = some value) :
    LookupEnv env key = (value, true) := by
  simp [LookupEnv, h]

/-- The test `!exists || value == ""` of `loadVariable` is `noValue`. -/
theorem lookupEnv_noValue_iff (env : Env) (key : String) :
    ((LookupEnv env key).2 = false ∨ (LookupEnv env key).1 = "") ↔ noValue env key := by
  unfold noValue LookupEnv
  cases h : env key <;> simp

/-- Every error that `validateType` returns wraps exactly one sentinel, and
that sentinel is a validation kind; it is UnknownType only for a type name that
is not recognised. -/
theorem validateType_error_shape {T : Type} [GoValue T] (L : Lib) (t v : String) (x : T)
    (e : GoError) (h : validateType L t v = .ret x (some e)) :
    ∃ pre k post, e = .wrapped pre (.sentinel k) post ∧ k ∈ validationKinds ∧
      k ≠ .NotInOneof ∧ (k = .UnknownType → t ∉ recognisedTypes) := by
  unfold validateType at h
  unfold assertReturn at h
  split_ifs at h
  · split at h <;> simp at h
  · split at h
    · simp only [Outcome.ret.injEq] at h
      obtain ⟨-, h2⟩ := h
      unfold validateInt at h2
      split at h2
      · simp only [Option.some.injEq] at h2
        exact ⟨_, _, _, h2.symm, by simp [validationKinds], by simp, by simp⟩
      · simp at h2
    · simp at h
  · split at h
    · simp only [Outcome.ret.injEq] at h
      obtain ⟨-, h2⟩ := h
      unfold validateFloat at h2
      split at h2
      · simp only [Option.some.injEq] at h2
        exact ⟨_, _, _, h2.symm, by simp [validationKinds], by simp, by simp⟩
      · simp at h2
    · simp at h
  · split at h
    · simp only [Outcome.ret.injEq] at h
      obtain ⟨-, h2⟩ := h
      unfold validateBoolean at h2
      split at h2
      · simp only [Option.some.injEq] at h2
        exact ⟨_, _, _, h2.symm, by simp [validationKinds], by simp, by simp⟩
      · simp at h2
    · simp at h
  · split at h
    · simp only [Outcome.ret.injEq] at h
      obtain ⟨-, h2⟩ := h
      unfold validatePort at h2
      split at h2
      · simp only [Option.some.injEq] at h2
        exact ⟨_, _, _, h2.symm, by simp [validationKinds], by simp, by simp⟩
      · split_ifs at h2
        simp only [Option.some.injEq] at h2
        exact ⟨_, _, _, h2.symm, by simp [validationKinds], by simp, by simp⟩
    · simp at h
  · split at h
    · simp only [Outcome.ret.injEq] at h
      obtain ⟨-, h2⟩ := h
      unfold validateUrl at h2
      split_ifs at h2
      · simp only [Option.some.injEq] at h2
        exact ⟨_, _, _, h2.symm, by simp [validationKinds], by simp, by simp⟩
      · split at h2
        · simp only [Option.some.injEq] at h2
          exact ⟨_, _, _, h2.symm, by simp [validationKinds], by simp, by simp⟩
        · simp at h2
    · simp at h
  · split at h
    · simp only [Outcome.ret.injEq] at h
      obtain ⟨-, h2⟩ := h
      unfold validateEmail at h2
      split_ifs at h2
      · simp only [Option.some.injEq] at h2
        exact ⟨_, _, _, h2.symm, by simp [validationKinds], by simp, by simp⟩
      · split at h2
        · simp only [Option.some.injEq] at h2
          exact ⟨_, _, _, h2.symm, by simp [validationKinds], by simp, by simp⟩
        · simp at h2
    · simp at h
  · simp only [Outcome.ret.injEq, Option.some.injEq] at h
    refine ⟨_, _, _, h.2.symm, by simp [validationKinds], by simp, fun _ => ?_⟩
    simp only [recognisedTypes, List.mem_cons, List.mem_singleton, List.mem_nil_iff, or_false]
    tauto

/-- Every error that `validate` returns is of exactly one kind, and that kind
is a validation kind. -/
theorem validate_error_kind {T : Type} [GoValue T] (L : Lib) (w : Variable T) (v : String)
    (x : T) (e : GoError) (h : validate L w v = .ret x (some e)) :
    ∃ k, k ∈ validationKinds ∧ ∀ k2, e.isKind k2 = decide (k = k2) := by
  unfold validate at h
  split at h
  · simp at h
  · rename_i y err hvt
    simp only [Outcome.ret.injEq, Option.some.injEq] at h
    obtain ⟨pre, k, post, he, hk, -, -⟩ := validateType_error_shape L _ _ _ _ hvt
    refine ⟨k, hk, fun k2 => ?_⟩
    rw [← h.2, he, isKind_wrapped_sentinel]
  · split_ifs at h
    · simp only [Outcome.ret.injEq, Option.some.injEq] at h
      refine ⟨.NotInOneof, by simp [validationKinds], fun k2 => ?_⟩
      rw [← h.2, isKind_wrappedChoices_sentinel]
    · simp at h

/-- With a non-empty name and no value in the environment, `loadVariable` is
decided by `Default` and `Optional` alone. -/
theorem loadVariable_noValue {T : Type} [GoValue T] (L : Lib) (env : Env) (v : Variable T)
    (hname : v.Name ≠ "") (hno : noValue env v.Name) :
    loadVariable L env v =
      match v.Default with
      | some d => .ret d none
      | none =>
          if v.Optional then .ret GoValue.zero none
          else .ret GoValue.zero (some (.sentinel .MissingValue)) := by
  unfold loadVariable
  rw [if_neg hname, if_pos ((lookupEnv_noValue_iff _ _).2 hno)]

/-- With a non-empty name and a non-empty value in the environment,
`loadVariable` is built-in validation followed by the custom validator. -/
theorem loadVariable_value {T : Type} [GoValue T] (L : Lib) (env : Env) (v : Variable T)
    (value : String) (hname : v.Name ≠ "") (hval : env v.Name = some value)
    (hne : value ≠ "") :
    loadVariable L env v =
      match validate L v value with
      | .panic p => .panic p
      | .ret _ (some err) => .ret GoValue.zero (some err)
      | .ret validated none =>
          match v.Validator with
          | none => .ret validated none
          | some f =>
              match f validated with
              | (_, some err) => .ret GoValue.zero (some err)
              | (validated2, none) => .ret validated2 none := by
  unfold loadVariable
  rw [if_neg hname, lookupEnv_some hval]
  simp [hne]

/-- C1: for a variable without a custom validator, `loadVariable` fails with
kind MissingValue exactly when the name is non-empty, the environment holds no
value for it (unset, or set to the empty string), no default is set and
`Optional` is false. -/
theorem loadVariable_missingValue_iff {T : Type} [GoValue T] (L : Lib) (env : Env)
    (v : Variable T) (hv : v.Validator = none) :
    (loadVariable L env v).failsWith .MissingValue = true ↔
      (v.Name ≠ "" ∧ noValue env v.Name ∧ v.Default = none ∧ v.Optional = false) := by
  by_cases hn : v.Name = ""
  · simp [loadVariable, hn, Outcome.failsWith, isKind_sentinel]
  · by_cases hno : noValue env v.Name
    · rw [loadVariable_noValue L env v hn hno]
      cases hd : v.Default with
      | some d => simp [Outcome.failsWith]
      | none =>
          cases ho : v.Optional <;> simp [Outcome.failsWith, isKind_sentinel, hn, hno]
    · have hsome : ∃ value, env v.Name = some value ∧ value ≠ "" := by
        cases h : env v.Name with
        | none => exact absurd (Or.inl h) hno
        | some value =>
            refine ⟨value, rfl, fun h2 => hno (Or.inr ?_)⟩
            rw [h, h2]
      obtain ⟨value, hval, hne⟩ := hsome
      rw [loadVariable_value L env v value hn hval hne, hv]
      constructor
      · intro h
        exfalso
        cases hvd : validate L v value with
        | panic p => simp [hvd, Outcome.failsWith] at h
        | ret x err =>
            cases err with
            | none => simp [hvd, Outcome.failsWith] at h
            | some e =>
                obtain ⟨k, hk, hall⟩ := validate_error_kind L v value x e hvd
                simp only [hvd, Outcome.failsWith, hall] at h
                simp only [decide_eq_true_eq] at h
                subst h
                simp [validationKinds] at hk
      · intro h
        exact absurd h.2.1 hno

/-- Witness of C1: the required variable TEST_VAR in the empty environment,
where the failure does occur. -/
theorem loadVariable_missingValue_iff_witness :
    requiredString.Validator = none ∧
    ((loadVariable specLib emptyEnv requiredString).failsWith .MissingValue = true ↔
      (requiredString.Name ≠ "" ∧ noValue emptyEnv requiredString.Name ∧
        requiredString.Default = none ∧ requiredString.Optional = false)) ∧
    (loadVariable specLib emptyEnv requiredString).failsWith .MissingValue = true :=
  ⟨rfl, loadVariable_missingValue_iff specLib emptyEnv requiredString rfl, by decide⟩

/-- C2: with a non-empty name, a default `d` and no value in the environment,
`loadVariable` returns `d` and no error, whatever `Optional` is. -/
theorem loadVariable_default_wins {T : Type} [GoValue T] (L : Lib) (env : Env)
    (v : Variable T) (d : T) (hname : v.Name ≠ "") (hd : v.Default = some d)
    (hno : noValue env v.Name) :
    loadVariable L env v = .ret d none := by
  rw [loadVariable_noValue L env v hname hno, hd]

/-- Witness of C2: a default together with `Optional`, the key unset. -/
theorem loadVariable_default_wins_witness :
    defaultAndOptional.Name ≠ "" ∧ defaultAndOptional.Default = some "from_default" ∧
    defaultAndOptional.Optional = true ∧ noValue emptyEnv defaultAndOptional.Name ∧
    loadVariable specLib emptyEnv defaultAndOptional = .ret "from_default" none :=
  ⟨by decide, rfl, rfl, Or.inl rfl,
    loadVariable_default_wins specLib emptyEnv defaultAndOptional "from_default"
      (by decide) rfl (Or.inl rfl)⟩

/-- C3: if the name of the variable is unset in one environment and set to the
empty string in another, `loadVariable` returns the same value and the same
error in both (whatever the other keys hold). -/
theorem loadVariable_unset_eq_empty {T : Type} [GoValue T] (L : Lib) (env1 env2 : Env)
    (v : Variable T) (h1 : env1 v.Name = none) (h2 : env2 v.Name = some "") :
    loadVariable L env1 v = loadVariable L env2 v := by
  by_cases hn : v.Name = ""
  · simp [loadVariable, hn]
  · rw [loadVariable_noValue L env1 v hn (Or.inl h1),
      loadVariable_noValue L env2 v hn (Or.inr h2)]

/-- Witness of C3: TEST_VAR unset, and TEST_VAR set to the empty string. -/
theorem loadVariable_unset_eq_empty_witness :
    emptyEnv optionalInt.Name = none ∧ envOf "TEST_VAR" "" optionalInt.Name = some "" ∧
    loadVariable specLib emptyEnv optionalInt =
      loadVariable specLib (envOf "TEST_VAR" "") optionalInt :=
  ⟨rfl, by decide,
    loadVariable_unset_eq_empty specLib emptyEnv (envOf "TEST_VAR" "") optionalInt rfl
      (by decide)⟩

/-- C4: with a non-empty name and a non-empty value in the environment, the
result of `loadVariable` is that of the built-in validation of the value
followed by the custom validator, if there is one, and it is the same for every
variable with the same name, type, choices and validator, whatever `Default`
and `Optional` are. So "0" for an int and "false" or "off" for a boolean give 0
and false with no error, not the default that is set. -/
theorem loadVariable_present_ignores_default {T : Type} [GoValue T] (L : Lib) (env : Env)
    (v w : Variable T) (value : String) (hname : v.Name ≠ "")
    (hval : env v.Name = some value) (hne : value ≠ "")
    (hN : w.Name = v.Name) (hT : w.Type_ = v.Type_) (hO : w.Oneof = v.Oneof)
    (hV : w.Validator = v.Validator) :
    (loadVariable L env v =
      match validate L v value with
      | .panic p => .panic p
      | .ret _ (some err) => .ret GoValue.zero (some err)
      | .ret validated none =>
          match v.Validator with
          | none => .ret validated none
          | some f =>
              match f validated with
              | (_, some err) => .ret GoValue.zero (some err)
              | (validated2, none) => .ret validated2 none) ∧
    loadVariable L env w = loadVariable L env v ∧
    loadVariable specLib (envOf "COUNT" "0") countWithDefault = .ret 0 none ∧
    loadVariable specLib (envOf "FLAG" "false") flagWithDefault = .ret false none ∧
    loadVariable specLib (envOf "FLAG" "off") flagWithDefault = .ret false none := by
  refine ⟨loadVariable_value L env v value hname hval hne, ?_, by decide, by decide,
    by decide⟩
  rw [loadVariable_value L env v value hname hval hne,
    loadVariable_value L env w value (hN ▸ hname) (hN ▸ hval) hne, hV]
  have hvw : validate L w value = validate L v value := by
    unfold validate
    rw [hT, hO]
  rw [hvw]

/-- Witness of C4: COUNT set to "0", for the variable with default 7 and for
the same variable made optional and without default. -/
theorem loadVariable_present_ignores_default_witness :
    loadVariable specLib (envOf "COUNT" "0") { countWithDefault with
        Default := none, Optional := true } =
      loadVariable specLib (envOf "COUNT" "0") countWithDefault :=
  (loadVariable_present_ignores_default specLib (envOf "COUNT" "0") countWithDefault
    { countWithDefault with Default := none, Optional := true } "0"
    (by decide) (by decide) (by decide) rfl rfl rfl rfl).2.1

/-- C5: with a non-empty name, no default, `Optional` set and no value in the
environment, `loadVariable` returns the zero value of `T` and no error; the
zero value is "" for a string, 0 for an int and false for a boolean. -/
theorem loadVariable_optional_zero {T : Type} [GoValue T] (L : Lib) (env : Env)
    (v : Variable T) (hname : v.Name ≠ "") (hd : v.Default = none)
    (ho : v.Optional = true) (hno : noValue env v.Name) :
    loadVariable L env v = .ret GoValue.zero none ∧
    (GoValue.zero : String) = "" ∧ (GoValue.zero : Int) = 0 ∧
    (GoValue.zero : Bool) = false := by
  refine ⟨?_, rfl, rfl, rfl⟩
  rw [loadVariable_noValue L env v hname hno, hd]
  simp [ho]

/-- Witness of C5: the optional int TEST_VAR set to the empty string. -/
theorem loadVariable_optional_zero_witness :
    optionalInt.Name ≠ "" ∧ optionalInt.Default = none ∧ optionalInt.Optional = true ∧
    noValue (envOf "TEST_VAR" "") optionalInt.Name ∧
    loadVariable specLib (envOf "TEST_VAR" "") optionalInt = .ret 0 none :=
  ⟨by decide, rfl, rfl, Or.inr (by decide),
    (loadVariable_optional_zero specLib (envOf "TEST_VAR" "") optionalInt (by decide) rfl rfl
      (Or.inr (by decide))).1⟩

/-- C6: a variable whose name is empty makes `loadVariable` return the zero
value and the error MissingName, for every environment and every library,
whatever its type, default, optional flag, choices and validator are. -/
theorem loadVariable_missingName {T : Type} [GoValue T] (L : Lib) (env : Env)
    (v : Variable T) (hname : v.Name = "") :
    loadVariable L env v = .ret GoValue.zero (some (.sentinel .MissingName)) ∧
    (loadVariable L env v).failsWith .MissingName = true ∧
    ∀ env2 : Env, loadVariable L env2 v = loadVariable L env v := by
  have h : ∀ e : Env, loadVariable L e v = .ret GoValue.zero (some (.sentinel .MissingName)) := by
    intro e
    simp [loadVariable, hname]
  refine ⟨h env, ?_, fun env2 => by rw [h env2, h env]⟩
  rw [h env]
  simp [Outcome.failsWith, isKind_sentinel]

/-- Witness of C6: the nameless string variable, with TEST_VAR set. -/
theorem loadVariable_missingName_witness :
    namelessString.Name = "" ∧
    loadVariable specLib (envOf "TEST_VAR" "x") namelessString =
      .ret "" (some (.sentinel .MissingName)) :=
  ⟨rfl, (loadVariable_missingName specLib (envOf "TEST_VAR" "x") namelessString rfl).1⟩

/-- The result of `validatePort` when `as.Int` fails. -/
theorem validatePort_of_error (L : Lib) (v err : String) (h : L.asInt v = .error err) :
    validatePort L v = (0, some (.wrapped "" (.sentinel .InvalidPort)
      (". unable to parse '" ++ v ++ "' as integer: " ++ err))) := by
  simp [validatePort, h]

/-- The result of `validatePort` on an integer outside 1..65535. -/
theorem validatePort_of_outside (L : Lib) (v : String) (port : Int)
    (h : L.asInt v = .ok port) (hr : port < 1 ∨ port > 65535) :
    validatePort L v = (0, some (.wrapped "" (.sentinel .InvalidPort)
      (". " ++ toString port ++ " is out of range (1-65535)"))) := by
  simp only [validatePort, h]
  rw [if_pos hr]

/-- The result of `validatePort` on an integer inside 1..65535. -/
theorem validatePort_of_inside (L : Lib) (v : String) (port : Int)
    (h : L.asInt v = .ok port) (h1 : 1 ≤ port) (h2 : port ≤ 65535) :
    validatePort L v = (port, none) := by
  have hr : ¬ (port < 1 ∨ port > 65535) := by omega
  simp only [validatePort, h]
  rw [if_neg hr]

/-- C7: `validatePort` succeeds exactly when the raw string parses (by
`as.Int`) as an integer `n` with `1 ≤ n ≤ 65535`, and then returns `n`; in
every other case it returns 0 and an error whose only kind is InvalidPort, be
it a parse failure or a range failure. With the parser of the specification,
"1" and "65535" are accepted and "0", "-1", "65536", "" and "not a port" are
rejected. -/
theorem validatePort_accepts_iff (L : Lib) (v : String) :
    ((validatePort L v).2 = none ↔ ∃ n, L.asInt v = .ok n ∧ 1 ≤ n ∧ n ≤ 65535) ∧
    (∀ n, L.asInt v = .ok n → 1 ≤ n → n ≤ 65535 → validatePort L v = (n, none)) ∧
    ((¬ ∃ n, L.asInt v = .ok n ∧ 1 ≤ n ∧ n ≤ 65535) →
      (validatePort L v).1 = 0 ∧
      ∃ e, (validatePort L v).2 = some e ∧ ∀ k, e.isKind k = decide (ErrKind.InvalidPort = k)) ∧
    validatePort specLib "1" = (1, none) ∧
    validatePort specLib "65535" = (65535, none) ∧
    ∀ s ∈ ["0", "-1", "65536", "", "not a port"],
      (validatePort specLib s).1 = 0 ∧
      (validatePort specLib s).2.map (fun e => e.isKind .InvalidPort) = some true := by
  refine ⟨?_, ?_, ?_, by decide, by decide, by decide⟩
  · cases h : L.asInt v with
    | error err =>
        rw [validatePort_of_error L v err h]
        simp
    | ok port =>
        by_cases hr : port < 1 ∨ port > 65535
        · rw [validatePort_of_outside L v port h hr]
          constructor
          · intro hh
            simp at hh
          · rintro ⟨n, hn, h1, h2⟩
            cases hn
            omega
        · rw [validatePort_of_inside L v port h (by omega) (by omega)]
          constructor
          · intro _
            exact ⟨port, rfl, by omega, by omega⟩
          · intro _
            rfl
  · intro n h h1 h2
    exact validatePort_of_inside L v n h h1 h2
  · intro hno
    cases h : L.asInt v with
    | error err =>
        rw [validatePort_of_error L v err h]
        exact ⟨rfl, _, rfl, fun k => isKind_wrapped_sentinel _ _ _ k⟩
    | ok port =>
        have hr : port < 1 ∨ port > 65535 := by
          by_contra hc
          exact hno ⟨port, h, by omega, by omega⟩
        rw [validatePort_of_outside L v port h hr]
        exact ⟨rfl, _, rfl, fun k => isKind_wrapped_sentinel _ _ _ k⟩

/-- Witness of C7: "8080" parses as 8080, which is inside the range. -/
theorem validatePort_accepts_iff_witness :
    specLib.asInt "8080" = .ok 8080 ∧ validatePort specLib "8080" = (8080, none) :=
  ⟨rfl, (validatePort_accepts_iff specLib "8080").2.1 8080 rfl (by decide) (by decide)⟩

/-- The result of `validateBoolean` when `as.Bool` fails. -/
theorem validateBoolean_of_error (L : Lib) (v err : String) (h : L.asBool v = .error err) :
    validateBoolean L v = (false, some (.wrapped "" (.sentinel .InvalidBool)
      (". unable to parse '" ++ v ++ "' as boolean: " ++ err))) := by
  simp [validateBoolean, h]

/-- The result of `validateBoolean` when `as.Bool` succeeds. -/
theorem validateBoolean_of_ok (L : Lib) (v : String) (b : Bool) (h : L.asBool v = .ok b) :
    validateBoolean L v = (b, none) := by
  simp [validateBoolean, h]

/-- The strings that the specified `as.Bool` accepts, and their values. -/
theorem asBool_ok_iff (v : String) (b : Bool) :
    asBool v = .ok b ↔
      ((v = "true" ∨ v = "1" ∨ v = "on") ∧ b = true) ∨
      ((v = "false" ∨ v = "0" ∨ v = "off") ∧ b = false) := by
  unfold asBool
  by_cases h1 : v = "true" ∨ v = "1" ∨ v = "on"
  · have h2 : ¬ (v = "false" ∨ v = "0" ∨ v = "off") := by
      rcases h1 with h | h | h <;> subst h <;> decide
    rw [if_pos h1]
    simp only [Except.ok.injEq, h1, h2, true_and, false_and, or_false]
    exact eq_comm
  · rw [if_neg h1]
    by_cases h2 : v = "false" ∨ v = "0" ∨ v = "off"
    · rw [if_pos h2]
      simp only [Except.ok.injEq, h1, h2, true_and, false_and, false_or]
      exact eq_comm
    · rw [if_neg h2]
      simp [h1, h2]

/-- C8: whatever `as.Bool` is, `validateBoolean` succeeds with `b` exactly when
`as.Bool` does, and otherwise returns false and an error whose only kind is
InvalidBool. With `as.Bool` as the specification describes it,
`validateBoolean` succeeds exactly on "true", "false", "1", "0", "on", "off",
with true for "true", "1", "on" and false for "false", "0", "off"; every other
string, such as "" or "TRUE", gives false and an InvalidBool error. -/
theorem validateBoolean_accepts_iff (v : String) :
    (∀ L : Lib,
      (∀ b, L.asBool v = .ok b → validateBoolean L v = (b, none)) ∧
      ((validateBoolean L v).2 = none ↔ ∃ b, L.asBool v = .ok b) ∧
      ((validateBoolean L v).2 ≠ none → (validateBoolean L v).1 = false ∧
        ∃ e, (validateBoolean L v).2 = some e ∧
          ∀ k, e.isKind k = decide (ErrKind.InvalidBool = k))) ∧
    ((validateBoolean specLib v).2 = none ↔ v ∈ booleanLiterals) ∧
    (v ∈ ["true", "1", "on"] → validateBoolean specLib v = (true, none)) ∧
    (v ∈ ["false", "0", "off"] → validateBoolean specLib v = (false, none)) ∧
    (v ∉ booleanLiterals → (validateBoolean specLib v).1 = false ∧
      (validateBoolean specLib v).2.map (fun e => e.isKind .InvalidBool) = some true) ∧
    (∀ s ∈ ["", "TRUE", "True", "False", "ON", "Off", "yes", "not a boolean"],
      s ∉ booleanLiterals) := by
  have hgen : ∀ L : Lib,
      (∀ b, L.asBool v = .ok b → validateBoolean L v = (b, none)) ∧
      ((validateBoolean L v).2 = none ↔ ∃ b, L.asBool v = .ok b) ∧
      ((validateBoolean L v).2 ≠ none → (validateBoolean L v).1 = false ∧
        ∃ e, (validateBoolean L v).2 = some e ∧
          ∀ k, e.isKind k = decide (ErrKind.InvalidBool = k)) := by
    intro L
    refine ⟨fun b h => validateBoolean_of_ok L v b h, ?_, ?_⟩
    · cases h : L.asBool v with
      | error err =>
          rw [validateBoolean_of_error L v err h]
          simp
      | ok b =>
          rw [validateBoolean_of_ok L v b h]
          simp
    · cases h : L.asBool v with
      | error err =>
          rw [validateBoolean_of_error L v err h]
          intro _
          exact ⟨rfl, _, rfl, fun k => isKind_wrapped_sentinel _ _ _ k⟩
      | ok b =>
          rw [validateBoolean_of_ok L v b h]
          intro hh
          exact absurd rfl hh
  have hT : v ∈ ["true", "1", "on"] → validateBoolean specLib v = (true, none) := by
    intro hv
    apply validateBoolean_of_ok
    show asBool v = .ok true
    rw [asBool_ok_iff]
    left
    simpa using hv
  have hF : v ∈ ["false", "0", "off"] → validateBoolean specLib v = (false, none) := by
    intro hv
    apply validateBoolean_of_ok
    show asBool v = .ok false
    rw [asBool_ok_iff]
    right
    simpa using hv
  have hN : v ∉ booleanLiterals → ∃ err, specLib.asBool v = .error err := by
    intro hv
    cases h : specLib.asBool v with
    | error err => exact ⟨err, rfl⟩
    | ok b =>
        exfalso
        apply hv
        have h2 : asBool v = .ok b := h
        rw [asBool_ok_iff] at h2
        simp only [booleanLiterals, List.mem_cons, List.mem_singleton]
        tauto
  refine ⟨hgen, ?_, hT, hF, ?_, by decide⟩
  · constructor
    · intro h
      by_contra hv
      obtain ⟨err, he⟩ := hN hv
      rw [validateBoolean_of_error specLib v err he] at h
      simp at h
    · intro hv
      simp only [booleanLiterals, List.mem_cons, List.mem_singleton, List.mem_nil_iff,
        or_false] at hv
      rcases hv with h | h | h | h | h | h
      · rw [hT (by simp [h])]
      · rw [hF (by simp [h])]
      · rw [hT (by simp [h])]
      · rw [hF (by simp [h])]
      · rw [hT (by simp [h])]
      · rw [hF (by simp [h])]
  · intro hv
    obtain ⟨err, he⟩ := hN hv
    rw [validateBoolean_of_error specLib v err he]
    refine ⟨rfl, ?_⟩
    simp [isKind_wrapped_sentinel]

/-- Witness of C8: the literal "on". -/
theorem validateBoolean_accepts_iff_witness :
    "on" ∈ ["true", "1", "on"] ∧ validateBoolean specLib "on" = (true, none) :=
  ⟨by decide, (validateBoolean_accepts_iff "on").2.2.1 (by decide)⟩

/-- After a successful type validation, `validate` is the test of the choices. -/
theorem validate_of_typeOk {T : Type} [GoValue T] (L : Lib) (w : Variable T) (v : String)
    (x : T) (h : validateType L w.Type_ v = .ret x none) :
    validate L w v =
      if w.Oneof.length > 0 ∧ ¬ slicesContains w.Oneof x then
        .ret GoValue.zero
          (some (.wrappedChoices (.sentinel .NotInOneof) (w.Oneof.map GoValue.box)))
      else .ret x none := by
  simp only [validate, h]

/-- For int, `slices.Contains` is list membership. -/
theorem slicesContains_int (xs : List Int) (x : Int) :
    slicesContains xs x = true ↔ x ∈ xs := by
  unfold slicesContains
  rw [List.any_eq_true]
  constructor
  · rintro ⟨y, hy, he⟩
    have hxy : x = y := by simpa [GoValue.eq] using he
    rw [hxy]
    exact hy
  · intro h
    exact ⟨x, h, by simp [GoValue.eq]⟩

/-- For string, `slices.Contains` is list membership. -/
theorem slicesContains_string (xs : List String) (x : String) :
    slicesContains xs x = true ↔ x ∈ xs := by
  unfold slicesContains
  rw [List.any_eq_true]
  constructor
  · rintro ⟨y, hy, he⟩
    have hxy : x = y := by simpa [GoValue.eq] using he
    rw [hxy]
    exact hy
  · intro h
    exact ⟨x, h, by simp [GoValue.eq]⟩

/-- For bool, `slices.Contains` is list membership. -/
theorem slicesContains_bool (xs : List Bool) (x : Bool) :
    slicesContains xs x = true ↔ x ∈ xs := by
  unfold slicesContains
  rw [List.any_eq_true]
  constructor
  · rintro ⟨y, hy, he⟩
    have hxy : x = y := by simpa [GoValue.eq] using he
    rw [hxy]
    exact hy
  · intro h
    exact ⟨x, h, by simp [GoValue.eq]⟩

/-- C9: `validate` succeeds with `x` exactly when the type validation of the
raw string succeeds with `x` and the choices are empty or contain `x` (by the
`==` of `T`, which for int, string and bool is list membership); when type
validation succeeds with `x` and the non-empty choices do not contain `x`,
`validate` returns the zero value and an error of kind NotInOneof. The test is
on the typed value: the int variable with choices 80, 443, 8080 accepts "8080"
and rejects "3000", which is a valid int. -/
theorem validate_succeeds_iff {T : Type} [GoValue T] (L : Lib) (w : Variable T)
    (v : String) :
    (∀ x, validate L w v = .ret x none ↔
      (validateType L w.Type_ v = .ret x none ∧
        (w.Oneof = [] ∨ slicesContains w.Oneof x = true))) ∧
    (∀ x, validateType L w.Type_ v = .ret x none → w.Oneof ≠ [] →
      slicesContains w.Oneof x = false →
        validate L w v = .ret GoValue.zero
          (some (.wrappedChoices (.sentinel .NotInOneof) (w.Oneof.map GoValue.box))) ∧
        (validate L w v).failsWith .NotInOneof = true) ∧
    (∀ (xs : List Int) (x : Int), slicesContains xs x = true ↔ x ∈ xs) ∧
    (∀ (xs : List String) (x : String), slicesContains xs x = true ↔ x ∈ xs) ∧
    (∀ (xs : List Bool) (x : Bool), slicesContains xs x = true ↔ x ∈ xs) ∧
    validate specLib portChoices "8080" = .ret 8080 none ∧
    (validateType specLib portChoices.Type_ "3000" : Outcome Int) = .ret 3000 none ∧
    (validate specLib portChoices "3000").failsWith .NotInOneof = true ∧
    validate specLib ({ portChoices with Oneof := [] } : Variable Int) "3000" = .ret 3000 none := by
  refine ⟨?_, ?_, slicesContains_int, slicesContains_string, slicesContains_bool,
    by decide, by decide, by decide, by decide⟩
  · intro x
    constructor
    · intro h
      cases hvt : (validateType L w.Type_ v : Outcome T) with
      | panic p => simp [validate, hvt] at h
      | ret y err =>
          cases err with
          | some e => simp [validate, hvt] at h
          | none =>
              rw [validate_of_typeOk L w v y hvt] at h
              split_ifs at h with hc
              · simp at h
              · simp only [Outcome.ret.injEq, and_true] at h
                subst h
                refine ⟨rfl, ?_⟩
                by_cases hO : w.Oneof = []
                · exact Or.inl hO
                · right
                  by_contra hcon
                  exact hc ⟨List.length_pos.2 hO, hcon⟩
    · rintro ⟨hvt, hO⟩
      rw [validate_of_typeOk L w v x hvt]
      have hc : ¬ (w.Oneof.length > 0 ∧ ¬ slicesContains w.Oneof x = true) := by
        rintro ⟨hlen, hnot⟩
        rcases hO with hO | hO
        · rw [hO] at hlen
          simp at hlen
        · exact hnot hO
      rw [if_neg hc]
  · intro x hvt hO hnot
    have hc : w.Oneof.length > 0 ∧ ¬ slicesContains w.Oneof x = true :=
      ⟨List.length_pos.2 hO, by simp [hnot]⟩
    have heq : validate L w v = .ret GoValue.zero
        (some (.wrappedChoices (.sentinel .NotInOneof) (w.Oneof.map GoValue.box))) := by
      rw [validate_of_typeOk L w v x hvt, if_pos hc]
    refine ⟨heq, ?_⟩
    rw [heq]
    simp [Outcome.failsWith, isKind_wrappedChoices_sentinel]

/-- Witness of C9: "3000" is a valid int that is not among 80, 443, 8080. -/
theorem validate_succeeds_iff_witness :
    (validateType specLib portChoices.Type_ "3000" : Outcome Int) = .ret 3000 none ∧
    portChoices.Oneof ≠ [] ∧ slicesContains portChoices.Oneof 3000 = false ∧
    (validate specLib portChoices "3000").failsWith .NotInOneof = true :=
  ⟨by decide, by decide, by decide,
    ((validate_succeeds_iff specLib portChoices "3000").2.1 3000 (by decide) (by decide)
      (by decide)).2⟩

/-- The result of `validateType` for a type name that is not recognised. -/
theorem validateType_of_unknown {T : Type} [GoValue T] (L : Lib) (t v : String)
    (h : t ∉ recognisedTypes) :
    (validateType L t v : Outcome T) = .ret GoValue.zero
      (some (.wrapped "Err: " (.sentinel .UnknownType)
        (". Reason: unknown type '" ++ t ++ "'"))) := by
  simp only [recognisedTypes, List.mem_cons, List.mem_singleton, List.mem_nil_iff, or_false,
    not_or] at h
  obtain ⟨h1, h2, h3, h4, h5, h6, h7, h8, h9, h10, h11⟩ := h
  simp [validateType, h1, h2, h3, h4, h5, h6, h7, h8, h9, h10, h11]

/-- C10: `validateType` fails with kind UnknownType exactly when the type name
is none of the eleven names "string", "str", "", "int", "integer", "float",
"boolean", "bool", "port", "url", "email", compared as written (so "String",
"INT" and "Bool" are unknown). The failure is then the same for every raw
string, the value is the zero value of `T`, UnknownType is the only kind of the
error, and the message of the error contains the type name. -/
theorem validateType_unknown_iff {T : Type} [GoValue T] (L : Lib) (t v : String) :
    ((validateType L t v : Outcome T).failsWith .UnknownType = true ↔
      t ∉ recognisedTypes) ∧
    (t ∉ recognisedTypes →
      (∀ v2, (validateType L t v2 : Outcome T) = validateType L t v) ∧
      ∃ e, (validateType L t v : Outcome T) = .ret GoValue.zero (some e) ∧
        (∀ k, e.isKind k = decide (ErrKind.UnknownType = k)) ∧
        ∀ fmtFloat, t.data <:+: (e.Error fmtFloat).data) ∧
    recognisedTypes.length = 11 ∧
    (∀ s ∈ ["String", "INT", "Bool", "Port", "unknown"], s ∉ recognisedTypes) := by
  refine ⟨?_, ?_, rfl, by decide⟩
  · constructor
    · intro h
      cases hvt : (validateType L t v : Outcome T) with
      | panic p => simp [hvt, Outcome.failsWith] at h
      | ret x err =>
          cases err with
          | none => simp [hvt, Outcome.failsWith] at h
          | some e =>
              obtain ⟨pre, k, post, he, -, -, hk⟩ := validateType_error_shape L t v x e hvt
              simp only [hvt, Outcome.failsWith, he, isKind_wrapped_sentinel,
                decide_eq_true_eq] at h
              exact hk h
    · intro h
      rw [validateType_of_unknown L t v h]
      simp [Outcome.failsWith, isKind_wrapped_sentinel]
  · intro h
    refine ⟨fun v2 => ?_, _, validateType_of_unknown L t v h,
      fun k => isKind_wrapped_sentinel _ _ _ k, fun fmtFloat => ?_⟩
    · rw [validateType_of_unknown L t v2 h, validateType_of_unknown L t v h]
    · refine ⟨("Err: " ++ ErrKind.UnknownType.text ++ ". Reason: unknown type '").data,
        "'".data, ?_⟩
      simp [GoError.Error, String.data_append]

/-- Witness of C10: the type name "unknown" for a string variable. -/
theorem validateType_unknown_iff_witness :
    "unknown" ∉ recognisedTypes ∧
    (validateType specLib "unknown" "value" : Outcome String) =
      .ret "" (some (.wrapped "Err: " (.sentinel .UnknownType)
        ". Reason: unknown type 'unknown'")) ∧
    (validateType specLib "unknown" "value" : Outcome String).failsWith .UnknownType = true :=
  ⟨by decide, by decide,
    (validateType_unknown_iff specLib "unknown" "value").1.2 (by decide)⟩

/-- C11: for the type names "string", "str" and "", `validateType` returns the
raw string unchanged and no error, whatever the string is (blanks at either end
included): as a `string` for `T = string`, boxed for `T = any`. -/
theorem validateType_string_identity (L : Lib) (t v : String)
    (ht : t = "string" ∨ t = "str" ∨ t = "") :
    (validateType L t v : Outcome String) = .ret v none ∧
    (validateType L t v : Outcome Any) = .ret (.str v) none ∧
    (validateType L t "  spaces  " : Outcome String) = .ret "  spaces  " none := by
  have h : ∀ w : String, (validateType L t w : Outcome String) = .ret w none := by
    intro w
    unfold validateType
    rw [if_pos ht]
    rfl
  refine ⟨h v, ?_, h _⟩
  unfold validateType
  rw [if_pos ht]
  rfl

/-- Witness of C11: the alias "str" on a string with blanks at both ends. -/
theorem validateType_string_identity_witness :
    (validateType specLib "str" " hello world " : Outcome String) =
      .ret " hello world " none :=
  (validateType_string_identity specLib "str" " hello world " (Or.inr (Or.inl rfl))).1

/-- C12: for a variable with a custom validator `f`, a non-empty name and a
non-empty value in the environment: when built-in validation (type and
choices) gives `x`, `loadVariable` returns `y` and no error if `f x` is
`(y, nil)`, and the zero value with exactly the error `e` if `f x` fails with
`e`; when built-in validation fails with `e`, `loadVariable` returns the zero
value and `e`, and so does every variable that differs only in its validator
(the validator is not applied). "10" with the doubling validator gives 20, and
a validator failing with its own error gives that error, which is of no
built-in kind. -/
theorem loadVariable_custom_validator {T : Type} [GoValue T] (L : Lib) (env : Env)
    (v : Variable T) (f : T → T × Option GoError) (value : String)
    (hname : v.Name ≠ "") (hval : env v.Name = some value) (hne : value ≠ "")
    (hf : v.Validator = some f) :
    (∀ x y, validate L v value = .ret x none → f x = (y, none) →
      loadVariable L env v = .ret y none) ∧
    (∀ x y e, validate L v value = .ret x none → f x = (y, some e) →
      loadVariable L env v = .ret GoValue.zero (some e)) ∧
    (∀ x e, validate L v value = .ret x (some e) →
      loadVariable L env v = .ret GoValue.zero (some e) ∧
      ∀ g, loadVariable L env { v with Validator := g } = .ret GoValue.zero (some e)) ∧
    loadVariable specLib (envOf "TEST_VAR" "10") doubled = .ret 20 none ∧
    loadVariable specLib (envOf "TEST_VAR" "10") rejecting = .ret 0 (some customErr) ∧
    (∀ k, customErr.isKind k = false) ∧
    (loadVariable specLib (envOf "TEST_VAR" "abc") doubled).failsWith .InvalidInt = true := by
  refine ⟨?_, ?_, ?_, by decide, by decide, ?_, by decide⟩
  · intro x y hx hy
    rw [loadVariable_value L env v value hname hval hne, hx, hf]
    simp only [hy]
  · intro x y e hx hy
    rw [loadVariable_value L env v value hname hval hne, hx, hf]
    simp only [hy]
  · intro x e hx
    refine ⟨?_, fun g => ?_⟩
    · rw [loadVariable_value L env v value hname hval hne, hx]
    · have hx2 : validate L { v with Validator := g } value = .ret x (some e) := hx
      rw [loadVariable_value L env { v with Validator := g } value hname hval hne, hx2]
  · intro k
    cases k <;> decide

/-- Witness of C12: TEST_VAR set to "10" for the doubling validator. -/
theorem loadVariable_custom_validator_witness :
    validate specLib doubled "10" = .ret 10 none ∧
    loadVariable specLib (envOf "TEST_VAR" "10") doubled = .ret 20 none :=
  ⟨by decide,
    (loadVariable_custom_validator specLib (envOf "TEST_VAR" "10") doubled
      (fun v => (v * 2, none)) "10" (by decide) (by decide) (by decide) rfl).1 10 20
      (by decide) rfl⟩

/-- The join of the single characters of a list is the list as a string. -/
theorem join_map_plain (S : GoStd) (l : List Char)
    (h : ∀ c ∈ l, 32 ≤ c.toNat ∧ c.toNat ≤ 126 ∧ c ≠ dquoteChar ∧ c ≠ backslashChar) :
    String.join (l.map (fun r =>
      if r = dquoteChar ∨ r = backslashChar then
        String.singleton backslashChar ++ String.singleton r
      else if 32 ≤ r.toNat ∧ r.toNat ≤ 126 then String.singleton r
      else S.escapeRune r)) = String.mk l := by
  have hmap : l.map (fun r =>
      if r = dquoteChar ∨ r = backslashChar then
        String.singleton backslashChar ++ String.singleton r
      else if 32 ≤ r.toNat ∧ r.toNat ≤ 126 then String.singleton r
      else S.escapeRune r) = l.map String.singleton := by
    apply List.map_congr_left
    intro c hc
    obtain ⟨h1, h2, h3, h4⟩ := h c hc
    have h5 : ¬ (c = dquoteChar ∨ c = backslashChar) := by
      rintro (h6 | h6)
      · exact h3 h6
      · exact h4 h6
    rw [if_neg h5, if_pos ⟨h1, h2⟩]
  rw [hmap]
  have hgen : ∀ (m : List Char) (acc : String),
      List.foldl (fun r s => r ++ s) acc (m.map String.singleton) = acc ++ String.mk m := by
    intro m
    induction m with
    | nil =>
        intro acc
        apply String.ext
        simp
    | cons c m ih =>
        intro acc
        rw [List.map_cons, List.foldl_cons, ih]
        apply String.ext
        simp [String.singleton]
  have h0 := hgen l ""
  unfold String.join
  rw [h0]
  apply String.ext
  simp

/-- On a name of printable ASCII characters other than the double quote and
the backslash, `%q` puts the name between double quotes. -/
theorem goQuote_plain (S : GoStd) (name : String)
    (h : ∀ c ∈ name.toList,
      32 ≤ c.toNat ∧ c.toNat ≤ 126 ∧ c ≠ dquoteChar ∧ c ≠ backslashChar) :
    goQuote S name = String.singleton dquoteChar ++ name ++ String.singleton dquoteChar := by
  unfold goQuote
  rw [join_map_plain S name.toList h]
  rfl

/-- The result of `Variable.Load` when `loadVariable` fails. -/
theorem variable_Load_of_error {T : Type} [GoValue T] (quote : String → String) (L : Lib)
    (env : Env) (v : Variable T) (x : T) (e : GoError)
    (h : loadVariable L env v = .ret x (some e)) :
    v.Load quote L env = .ret GoValue.zero
      (some (.wrapped ("Err: variable " ++ quote v.Name ++ ". Reason: ") e "")) := by
  simp only [Variable.Load, h]

/-- The result of `Variable.Load` when `loadVariable` succeeds. -/
theorem variable_Load_of_ok {T : Type} [GoValue T] (quote : String → String) (L : Lib)
    (env : Env) (v : Variable T) (x : T) (h : loadVariable L env v = .ret x none) :
    v.Load quote L env = .ret x none := by
  simp only [Variable.Load, h]

/-- The result of `Variable.Load` when `loadVariable` panics. -/
theorem variable_Load_of_panic {T : Type} [GoValue T] (quote : String → String) (L : Lib)
    (env : Env) (v : Variable T) (p : PanicValue) (h : loadVariable L env v = .panic p) :
    v.Load quote L env = .panic p := by
  simp only [Variable.Load, h]

/-- A wrapper passes every test `errors.Is` that the wrapped error passes. -/
theorem is_wrapped_of_is (pre post : String) (e target : GoError)
    (h : e.Is target = true) : (GoError.wrapped pre e post).Is target = true := by
  rw [GoError.Is]
  simp [h]

/-- C13: `Variable.Load` succeeds with `x` exactly when `loadVariable` does;
when `loadVariable` fails with `e`, `Load` returns the zero value and an error
that wraps `e`: every test `errors.Is` that `e` passes, it passes too, and its
message is "Err: variable ", the name as `%q` writes it, ". Reason: " and the
message of `e`. `Load` returns an error only in that case. For a name of
printable ASCII characters without double quote and backslash, `%q` writes the
name in double quotes, so for the required variable TEST_VAR without value the
message is `Err: variable "TEST_VAR". Reason: missing required variable`. -/
theorem variable_Load_wraps {T : Type} [GoValue T] (quote : String → String) (L : Lib)
    (env : Env) (v : Variable T) :
    (∀ x, v.Load quote L env = .ret x none ↔ loadVariable L env v = .ret x none) ∧
    (∀ x e, loadVariable L env v = .ret x (some e) →
      ∃ e2, v.Load quote L env = .ret GoValue.zero (some e2) ∧
        (∀ target, e.Is target = true → e2.Is target = true) ∧
        (∀ fmtFloat, e2.Error fmtFloat =
          "Err: variable " ++ quote v.Name ++ ". Reason: " ++ e.Error fmtFloat)) ∧
    (∀ x e2, v.Load quote L env = .ret x (some e2) →
      ∃ y e, loadVariable L env v = .ret y (some e)) ∧
    (∀ (S : GoStd) (name : String),
      (∀ c ∈ name.toList,
        32 ≤ c.toNat ∧ c.toNat ≤ 126 ∧ c ≠ dquoteChar ∧ c ≠ backslashChar) →
      goQuote S name =
        String.singleton dquoteChar ++ name ++ String.singleton dquoteChar) ∧
    (∀ (S : GoStd) fmtFloat,
      (requiredString.Load (goQuote S) L emptyEnv).failsWith .MissingValue = true ∧
      ∃ e2, requiredString.Load (goQuote S) L emptyEnv = .ret "" (some e2) ∧
        e2.Error fmtFloat =
          "Err: variable \"TEST_VAR\". Reason: missing required variable") := by
  refine ⟨?_, ?_, ?_, goQuote_plain, ?_⟩
  · intro x
    cases h : loadVariable L env v with
    | panic p => simp [variable_Load_of_panic quote L env v p h]
    | ret y err =>
        cases err with
        | none => simp [variable_Load_of_ok quote L env v y h]
        | some e => simp [variable_Load_of_error quote L env v y e h]
  · intro x e h
    refine ⟨_, variable_Load_of_error quote L env v x e h,
      fun target ht => is_wrapped_of_is _ _ e target ht, fun fmtFloat => ?_⟩
    simp [GoError.Error]
  · intro x e2 h
    cases h2 : loadVariable L env v with
    | panic p => simp [variable_Load_of_panic quote L env v p h2] at h
    | ret y err =>
        cases err with
        | none => simp [variable_Load_of_ok quote L env v y h2] at h
        | some e => exact ⟨y, e, rfl⟩
  · intro S fmtFloat
    have h : loadVariable L emptyEnv requiredString =
        .ret "" (some (.sentinel .MissingValue)) := by
      rw [loadVariable_noValue L emptyEnv requiredString (by decide) (Or.inl rfl)]
      rfl
    rw [variable_Load_of_error (goQuote S) L emptyEnv requiredString "" _ h]
    refine ⟨?_, _, rfl, ?_⟩
    · simp [Outcome.failsWith, GoError.isKind, GoError.Is]
    · rfl

/-- The only panic of `assertReturn` is a failed type assertion. -/
theorem assertReturn_panic {T : Type} [GoValue T] (x : Any) (err : Option GoError)
    (p : PanicValue) (h : (assertReturn x err : Outcome T) = .panic p) :
    p = .typeAssertion := by
  unfold assertReturn at h
  split at h
  · cases h
  · cases h
    rfl

/-- The only panic of `validateType` is a failed type assertion. -/
theorem validateType_panic {T : Type} [GoValue T] (L : Lib) (t v : String) (p : PanicValue)
    (h : (validateType L t v : Outcome T) = .panic p) : p = .typeAssertion := by
  unfold validateType at h
  split_ifs at h
  all_goals exact assertReturn_panic _ _ p h

/-- The only panic of `validate` is a failed type assertion. -/
theorem validate_panic {T : Type} [GoValue T] (L : Lib) (w : Variable T) (v : String)
    (p : PanicValue) (h : validate L w v = .panic p) : p = .typeAssertion := by
  cases hvt : (validateType L w.Type_ v : Outcome T) with
  | panic q =>
      simp only [validate, hvt, Outcome.panic.injEq] at h
      rw [← h]
      exact validateType_panic L _ _ _ hvt
  | ret y err =>
      cases err with
      | some e => simp [validate, hvt] at h
      | none =>
          rw [validate_of_typeOk L w v y hvt] at h
          split_ifs at h

/-- A key that does not lack a value has a non-empty value. -/
theorem exists_value_of_not_noValue (env : Env) (key : String) (h : ¬ noValue env key) :
    ∃ value, env key = some value ∧ value ≠ "" := by
  cases hk : env key with
  | none => exact absurd (Or.inl hk) h
  | some value =>
      refine ⟨value, rfl, fun h2 => h (Or.inr ?_)⟩
      rw [hk, h2]

/-- The only panic of `loadVariable` is a failed type assertion. -/
theorem loadVariable_panic {T : Type} [GoValue T] (L : Lib) (env : Env) (w : Variable T)
    (p : PanicValue) (h : loadVariable L env w = .panic p) : p = .typeAssertion := by
  by_cases hn : w.Name = ""
  · simp [loadVariable, hn] at h
  · by_cases hno : noValue env w.Name
    · rw [loadVariable_noValue L env w hn hno] at h
      cases hd : w.Default with
      | some d => simp [hd] at h
      | none =>
          simp only [hd] at h
          split_ifs at h
    · obtain ⟨value, hval, hne⟩ := exists_value_of_not_noValue env w.Name hno
      rw [loadVariable_value L env w value hn hval hne] at h
      cases hv : validate L w value with
      | panic q =>
          simp only [hv, Outcome.panic.injEq] at h
          rw [← h]
          exact validate_panic L w value q hv
      | ret y err =>
          cases err with
          | some e => simp [hv] at h
          | none =>
              simp only [hv] at h
              cases hf : w.Validator with
              | none => simp [hf] at h
              | some f =>
                  simp only [hf] at h
                  split at h <;> cases h

/-- The only panic of `Variable.Load` is a failed type assertion. -/
theorem variable_Load_panic {T : Type} [GoValue T] (quote : String → String) (L : Lib)
    (env : Env) (w : Variable T) (p : PanicValue) (h : w.Load quote L env = .panic p) :
    p = .typeAssertion := by
  unfold Variable.Load at h
  split at h
  · rename_i q hq
    cases h
    exact loadVariable_panic L env w _ hq
  · cases h
  · cases h

/-- The only panic of the loop of `load` is a failed type assertion. -/
theorem loadFields_panic (quote : String → String) (L : Lib) (env : Env)
    (fields : List Field) (t : Struct) (p : PanicValue)
    (h : loadFields quote L env fields t = .panic p) : p = .typeAssertion := by
  induction fields generalizing t with
  | nil => simp [loadFields] at h
  | cons field rest ih =>
      unfold loadFields at h
      split at h
      · cases h
      · cases h
      · split_ifs at h
        · exact ih t h
        · split at h
          · rename_i q hq
            cases h
            exact variable_Load_panic quote L env _ _ hq
          · cases h
          · split_ifs at h
            · exact ih t h
            · split at h
              · cases h
              · exact ih _ h

/-- C14: `MustLoad` panics with an error exactly when the corresponding `Load`
returns that error, the value of the panic being the error itself, and returns
`x` exactly when `Load` returns `x` without error, for a variable and for a
struct; a panic inside `Load` passes through. For the required variable
TEST_VAR without value the panic carries the MissingValue error of `Load`. -/
theorem mustLoad_panics_iff (quote : String → String) (L : Lib) (env : Env) :
    (∀ (T : Type) [GoValue T] (v : Variable T),
      (∀ e, v.MustLoad quote L env = .panic (.error e) ↔
        ∃ x, v.Load quote L env = .ret x (some e)) ∧
      (∀ x, v.MustLoad quote L env = .val x ↔ v.Load quote L env = .ret x none) ∧
      (∀ p, v.Load quote L env = .panic p → v.MustLoad quote L env = .panic p)) ∧
    (∀ inspected : Except String (List Field),
      (∀ e, MustLoad quote L env inspected = .panic (.error e) ↔
        ∃ t, Load quote L env inspected = .ret t (some e)) ∧
      (∀ t, MustLoad quote L env inspected = .val t ↔
        Load quote L env inspected = .ret t none) ∧
      (∀ p, Load quote L env inspected = .panic p →
        MustLoad quote L env inspected = .panic p)) ∧
    (∃ e, requiredString.MustLoad quote L emptyEnv = .panic (.error e) ∧
      e.isKind .MissingValue = true ∧
      requiredString.Load quote L emptyEnv = .ret "" (some e)) := by
  refine ⟨?_, ?_, ?_⟩
  · intro T _ v
    unfold Variable.MustLoad
    cases h : v.Load quote L env with
    | panic p =>
        have hp := variable_Load_panic quote L env v p h
        subst hp
        refine ⟨fun e => ?_, fun x => ?_, fun p2 hp2 => ?_⟩ <;> simp_all
    | ret y err =>
        cases err with
        | none => refine ⟨fun e => ?_, fun x => ?_, fun p2 hp => ?_⟩ <;> simp_all
        | some e1 => refine ⟨fun e => ?_, fun x => ?_, fun p2 hp => ?_⟩ <;> simp_all
  · intro inspected
    unfold MustLoad Load
    cases h : load quote L env inspected with
    | panic p =>
        have hp : p = .typeAssertion := by
          cases inspected with
          | error msg => simp [load] at h
          | ok fields => exact loadFields_panic quote L env fields [] p h
        subst hp
        refine ⟨fun e => ?_, fun x => ?_, fun p2 hp2 => ?_⟩ <;> simp_all
    | ret y err =>
        cases err with
        | none => refine ⟨fun e => ?_, fun x => ?_, fun p2 hp => ?_⟩ <;> simp_all
        | some e1 => refine ⟨fun e => ?_, fun x => ?_, fun p2 hp => ?_⟩ <;> simp_all
  · have h : loadVariable L emptyEnv requiredString =
        .ret "" (some (.sentinel .MissingValue)) := by
      rw [loadVariable_noValue L emptyEnv requiredString (by decide) (Or.inl rfl)]
      rfl
    have h2 := variable_Load_of_error quote L emptyEnv requiredString "" _ h
    refine ⟨_, ?_, ?_, h2⟩
    · simp only [Variable.MustLoad, h2]
    · simp [GoError.isKind, GoError.Is]

/-- Witness of C13: the required variable TEST_VAR in the empty environment. -/
theorem variable_Load_wraps_witness :
    loadVariable specLib emptyEnv requiredString = .ret "" (some (.sentinel .MissingValue)) ∧
    ∃ e2, requiredString.Load (goQuote sampleStd) specLib emptyEnv = .ret "" (some e2) ∧
      (∀ target, (GoError.sentinel .MissingValue).Is target = true → e2.Is target = true) ∧
      (∀ fmtFloat, e2.Error fmtFloat =
        "Err: variable " ++ goQuote sampleStd requiredString.Name ++ ". Reason: " ++
          (GoError.sentinel .MissingValue).Error fmtFloat) :=
  ⟨by decide,
    (variable_Load_wraps (goQuote sampleStd) specLib emptyEnv requiredString).2.1 ""
      (.sentinel .MissingValue) (by decide)⟩

/-- Witness of C14: TEST_VAR set, so that `Load` and `MustLoad` give its
value. -/
theorem mustLoad_panics_iff_witness :
    requiredString.Load (goQuote sampleStd) specLib (envOf "TEST_VAR" "success") =
      .ret "success" none ∧
    requiredString.MustLoad (goQuote sampleStd) specLib (envOf "TEST_VAR" "success") =
      .val "success" :=
  ⟨by decide,
    ((mustLoad_panics_iff (goQuote sampleStd) specLib (envOf "TEST_VAR" "success")).1
      String requiredString).2.1 "success" |>.2 (by decide)⟩

/-- A turn of the loop that ends without error continues with its writes. -/
theorem loadFields_cons_of_write (quote : String → String) (L : Lib) (env : Env)
    (g : Field) (rest : List Field) (t ws : Struct) (h : g.write quote L env = some ws) :
    loadFields quote L env (g :: rest) t = loadFields quote L env rest (t ++ ws) := by
  unfold Field.write at h
  cases hp : g.parsed with
  | error err => simp [hp] at h
  | ok w =>
      simp only [hp] at h
      by_cases hn : w.Name = ""
      · simp only [hn, if_true, Option.some.injEq] at h
        simp only [loadFields, hp, hn, if_true]
        rw [← h, List.append_nil]
      · simp only [hn, if_false] at h
        cases hl : w.Load quote L env with
        | panic q => simp [hl] at h
        | ret y err =>
            cases err with
            | some e => simp [hl] at h
            | none =>
                simp only [hl] at h
                by_cases hy : y = Any.nil
                · simp only [hy, if_true, Option.some.injEq] at h
                  simp only [loadFields, hp, hn, if_false, hl, hy, if_true]
                  rw [← h, List.append_nil]
                · simp only [hy, if_false] at h
                  cases hs : g.SetFrom y with
                  | some msg => simp [hs] at h
                  | none =>
                      simp only [hs, if_true, Option.some.injEq] at h
                      simp only [loadFields, hp, hn, if_false, hl, hy, hs]
                      rw [← h]

/-- Fields whose turns all end without error are passed with their writes. -/
theorem loadFields_append_of_writes (quote : String → String) (L : Lib) (env : Env)
    (pre rest : List Field) (t : Struct)
    (h : ∀ g ∈ pre, (g.write quote L env).isSome = true) :
    loadFields quote L env (pre ++ rest) t =
      loadFields quote L env rest (t ++ writes quote L env pre) := by
  induction pre generalizing t with
  | nil => simp [writes]
  | cons g pre ih =>
      have hg : (g.write quote L env).isSome = true := h g (List.mem_cons_self _ _)
      obtain ⟨ws, hws⟩ := Option.isSome_iff_exists.1 hg
      rw [List.cons_append, loadFields_cons_of_write quote L env g _ t ws hws,
        ih _ (fun g2 hg2 => h g2 (List.mem_cons_of_mem _ hg2))]
      simp [writes, hws, List.append_assoc]

/-- A write of a turn is into the field of that turn. -/
theorem write_name (quote : String → String) (L : Lib) (env : Env) (g : Field)
    (ws : Struct) (h : g.write quote L env = some ws) : ∀ p ∈ ws, p.1 = g.Name := by
  unfold Field.write at h
  intro p hp
  split at h
  · cases h
  · split_ifs at h
    · cases h
      simp at hp
    · split at h
      · split_ifs at h
        · cases h
          simp at hp
        · cases h
          simp at hp
          rw [hp]
      · cases h

/-- The writes of the turns on some fields are into these fields. -/
theorem writes_names (quote : String → String) (L : Lib) (env : Env) (fields : List Field) :
    ∀ p ∈ writes quote L env fields, ∃ g ∈ fields, g.Name = p.1 := by
  intro p hp
  unfold writes at hp
  rw [List.mem_flatten] at hp
  obtain ⟨ws, hws, hp2⟩ := hp
  rw [List.mem_filterMap] at hws
  obtain ⟨g, hg, hw⟩ := hws
  exact ⟨g, hg, (write_name quote L env g ws hw p hp2).symm⟩

/-- C15, as stated, fails: in the struct with the fields Tags and Port, with
APP_TAGS set and APP_PORT unset, the first named field whose resolution fails
is Port (MissingValue), the field Tags before it resolves, yet `Load` returns
the SetField error of Tags, whose write is rejected, and not the error of
Port. -/
theorem load_fail_fast_counterexample :
    varAppTags.Load (goQuote sampleStd) specLib appEnv = .ret (.str "a") none ∧
    (varAppPort.Load (goQuote sampleStd) specLib appEnv).failsWith .MissingValue = true ∧
    (Load (goQuote sampleStd) specLib appEnv (.ok [fieldTags, fieldPort])).failsWith
      .SetField = true ∧
    (Load (goQuote sampleStd) specLib appEnv (.ok [fieldTags, fieldPort])).failsWith
      .MissingValue = false := by
  decide

/-- C15, amended: if the variable of a named field fails to resolve with the
error `e`, and every field before it is passed without error (it parses, and it
is unnamed, or resolves to nil, or resolves to a value that its `SetFrom`
accepts), then `Load` returns exactly `e`, together with the struct that holds
the writes of the fields before; the result is the same whatever fields come
after, so none of them is resolved or written. -/
theorem load_fail_fast (quote : String → String) (L : Lib) (env : Env)
    (pre post : List Field) (f : Field) (v : Variable Any) (x : Any) (e : GoError)
    (hpre : ∀ g ∈ pre, (g.write quote L env).isSome = true)
    (hf : f.parsed = .ok v) (hname : v.Name ≠ "")
    (hfail : v.Load quote L env = .ret x (some e)) :
    Load quote L env (.ok (pre ++ f :: post)) = .ret (writes quote L env pre) (some e) ∧
    (∀ post2, Load quote L env (.ok (pre ++ f :: post2)) =
      Load quote L env (.ok (pre ++ f :: post))) ∧
    (∀ p ∈ writes quote L env pre, ∃ g ∈ pre, g.Name = p.1) := by
  have h : ∀ rest, Load quote L env (.ok (pre ++ f :: rest)) =
      .ret (writes quote L env pre) (some e) := by
    intro rest
    unfold Load load
    simp only
    rw [loadFields_append_of_writes quote L env pre _ [] hpre]
    simp only [loadFields, hf, hname, if_false, hfail, List.nil_append]
  exact ⟨h post, fun post2 => by rw [h post2, h post], writes_names quote L env pre⟩

/-- Witness of C15: the struct with the fields Name, Port and Tags, APP_NAME
set and APP_PORT unset: `Load` returns the error of Port. -/
theorem load_fail_fast_witness :
    (∀ g ∈ [fieldName], (g.write (goQuote sampleStd) specLib appEnv).isSome = true) ∧
    varAppPort.Name ≠ "" ∧
    varAppPort.Load (goQuote sampleStd) specLib appEnv = .ret Any.nil (some portMissing) ∧
    Load (goQuote sampleStd) specLib appEnv (.ok ([fieldName] ++ fieldPort :: [fieldTags])) =
      .ret (writes (goQuote sampleStd) specLib appEnv [fieldName]) (some portMissing) ∧
    writes (goQuote sampleStd) specLib appEnv [fieldName] = [("Name", Any.str "my-app")] :=
  ⟨by decide, by decide, by decide,
    (load_fail_fast (goQuote sampleStd) specLib appEnv [fieldName] [fieldTags] fieldPort
      varAppPort Any.nil portMissing (by decide) rfl (by decide) (by decide)).1,
    by decide⟩

/-- C16, the code on the struct with the fields Name and Port, APP_NAME set to
"my-app" and APP_PORT unset: `Load` returns the MissingValue error of Port
together with a struct whose field Name holds "my-app", not its zero value. -/
theorem load_error_keeps_earlier_fields :
    (Load (goQuote sampleStd) specLib appEnv (.ok [fieldName, fieldPort])).failsWith
      .MissingValue = true ∧
    Load (goQuote sampleStd) specLib appEnv (.ok [fieldName, fieldPort]) =
      .ret [("Name", Any.str "my-app")] (some portMissing) ∧
    Struct.field [("Name", Any.str "my-app")] "Name" = some (Any.str "my-app") := by
  decide

/-- A field whose descriptor has no name can be taken out of the fields
without changing the loop of `load`. -/
theorem loadFields_skip_unnamed (quote : String → String) (L : Lib) (env : Env)
    (pre post : List Field) (f : Field) (w : Variable Any) (t : Struct)
    (hf : f.parsed = .ok w) (hname : w.Name = "") :
    loadFields quote L env (pre ++ f :: post) t = loadFields quote L env (pre ++ post) t := by
  induction pre generalizing t with
  | nil => simp only [List.nil_append, loadFields, hf, hname, if_true]
  | cons g pre ih =>
      show loadFields quote L env (g :: (pre ++ f :: post)) t =
        loadFields quote L env (g :: (pre ++ post)) t
      simp only [loadFields, ih]

/-- Every write in the struct that the loop of `load` returns was there at the
start or is into one of the fields of the loop. -/
theorem loadFields_writes_into (quote : String → String) (L : Lib) (env : Env)
    (fields : List Field) (t t2 : Struct) (err : Option GoError)
    (h : loadFields quote L env fields t = .ret t2 err) :
    ∀ p ∈ t2, p ∈ t ∨ ∃ g ∈ fields, g.Name = p.1 := by
  induction fields generalizing t with
  | nil =>
      simp only [loadFields, Outcome.ret.injEq] at h
      intro p hp
      rw [← h.1] at hp
      exact Or.inl hp
  | cons g rest ih =>
      have hrec : ∀ t3, loadFields quote L env rest t3 = .ret t2 err →
          (∀ q ∈ t3, q ∈ t ∨ q.1 = g.Name) →
          ∀ p ∈ t2, p ∈ t ∨ ∃ g2 ∈ g :: rest, g2.Name = p.1 := by
        intro t3 h3 ht3 p hp
        rcases ih t3 h3 p hp with h4 | ⟨g2, hg2, hn⟩
        · rcases ht3 p h4 with h5 | h5
          · exact Or.inl h5
          · exact Or.inr ⟨g, List.mem_cons_self _ _, h5.symm⟩
        · exact Or.inr ⟨g2, List.mem_cons_of_mem _ hg2, hn⟩
      have hstop : t2 = t → ∀ p ∈ t2, p ∈ t ∨ ∃ g2 ∈ g :: rest, g2.Name = p.1 := by
        intro ht p hp
        rw [ht] at hp
        exact Or.inl hp
      simp only [loadFields] at h
      split at h
      · simp only [Outcome.ret.injEq] at h
        exact hstop h.1.symm
      · simp only [Outcome.ret.injEq] at h
        exact hstop h.1.symm
      · split_ifs at h
        · exact hrec t h (fun q hq => Or.inl hq)
        · split at h
          · cases h
          · simp only [Outcome.ret.injEq] at h
            exact hstop h.1.symm
          · split_ifs at h
            · exact hrec t h (fun q hq => Or.inl hq)
            · split at h
              · simp only [Outcome.ret.injEq] at h
                exact hstop h.1.symm
              · refine hrec _ h (fun q hq => ?_)
                rw [List.mem_append, List.mem_singleton] at hq
                rcases hq with hq | hq
                · exact Or.inl hq
                · right
                  rw [hq]

/-- A field that no write is into holds its zero value. -/
theorem field_none_of_no_write (t : Struct) (name : String) (h : ∀ p ∈ t, p.1 ≠ name) :
    t.field name = none := by
  unfold Struct.field
  rw [List.lookup_eq_none_iff]
  intro p hp
  have h2 := h p (List.mem_reverse.1 hp)
  simpa using fun h3 => h2 h3.symm

/-- C17: a field whose parsed descriptor has an empty name is skipped by
`Load`: with the field in the struct, `Load` returns what it returns without
it, for every environment and whatever the other fields are; alone, the field
gives no error and no write, in every environment; and when no other field has
its name, the field holds its zero value in the struct that `Load` returns. -/
theorem load_skips_unnamed (quote : String → String) (L : Lib) (env : Env)
    (pre post : List Field) (f : Field) (w : Variable Any)
    (hf : f.parsed = .ok w) (hname : w.Name = "") :
    Load quote L env (.ok (pre ++ f :: post)) = Load quote L env (.ok (pre ++ post)) ∧
    (∀ env2 : Env, Load quote L env2 (.ok [f]) = .ret [] none) ∧
    ((∀ g ∈ pre ++ post, g.Name ≠ f.Name) →
      ∀ t err, Load quote L env (.ok (pre ++ f :: post)) = .ret t err →
        t.field f.Name = none) := by
  have hskip : Load quote L env (.ok (pre ++ f :: post)) =
      Load quote L env (.ok (pre ++ post)) := by
    unfold Load load
    exact loadFields_skip_unnamed quote L env pre post f w [] hf hname
  refine ⟨hskip, fun env2 => ?_, fun hnames t err ht => ?_⟩
  · unfold Load load
    simp only [loadFields, hf, hname, if_true]
  · rw [hskip] at ht
    apply field_none_of_no_write
    intro p hp hpn
    have h3 := loadFields_writes_into quote L env (pre ++ post) [] t err ht p hp
    rcases h3 with h3 | ⟨g, hg, hgn⟩
    · simp at h3
    · exact hnames g hg (hgn.trans hpn)

/-- Witness of C17: the struct with the fields Name and Ignore, APP_NAME set:
`Load` gives what it gives for the struct with the field Name alone. -/
theorem load_skips_unnamed_witness :
    Load (goQuote sampleStd) specLib appEnv (.ok ([fieldName] ++ fieldIgnore :: [])) =
      Load (goQuote sampleStd) specLib appEnv (.ok ([fieldName] ++ [])) ∧
    Load (goQuote sampleStd) specLib appEnv (.ok [fieldName, fieldIgnore]) =
      .ret [("Name", Any.str "my-app")] none ∧
    Struct.field [("Name", Any.str "my-app")] "Ignore" = none :=
  ⟨(load_skips_unnamed (goQuote sampleStd) specLib appEnv [fieldName] [] fieldIgnore
      ⟨"", "", none, false, "", [], none⟩ rfl rfl).1, by decide, by decide⟩

/-- The result of `validateUrl` on a non-empty string that
`url.ParseRequestURI` accepts. -/
theorem validateUrl_of_ok (L : Lib) (v : String) (hv : v ≠ "")
    (h : L.parseRequestURI v = none) : validateUrl L v = (v, none) := by
  simp [validateUrl, hv, h]

/-- The result of `validateUrl` on a string that `url.ParseRequestURI`
rejects. -/
theorem validateUrl_of_error (L : Lib) (v err : String) (hv : v ≠ "")
    (h : L.parseRequestURI v = some err) :
    validateUrl L v = ("", some (.wrapped "" (.sentinel .InvalidUrl)
      (". unable to parse '" ++ v ++ "' as URL: " ++ err))) := by
  simp [validateUrl, hv, h]

/-- A path without percent sign has no bad escape. -/
theorem badEscape_none (cs : List Char) (h : '%' ∉ cs) : badEscape cs = none := by
  induction cs with
  | nil => rfl
  | cons c cs ih =>
      have hc : c ≠ '%' := fun h2 => h (h2 ▸ List.mem_cons_self _ _)
      have hcs : '%' ∉ cs := fun h2 => h (List.mem_cons_of_mem _ h2)
      unfold badEscape
      split
      · rename_i heq
        cases heq
      · rename_i heq
        simp only [List.cons.injEq] at heq
        exact absurd heq.1 hc
      · rename_i heq
        simp only [List.cons.injEq] at heq
        exact absurd heq.1 hc
      · rename_i heq
        simp only [List.cons.injEq] at heq
        rw [← heq.2]
        exact ih hcs

/-- Go's `parse` accepts, as a request URI, every absolute path without
control character and without percent sign. -/
theorem parseViaRequest_absolute_path (S : GoStd) (tl : List Char)
    (hctl : ∀ c ∈ tl, ¬ (c.toNat < 32 ∨ c.toNat = 127)) (hpct : '%' ∉ tl) :
    parseViaRequest S ('/' :: tl) = none := by
  have h1 : ('/' :: tl).any (fun c => c.toNat < 32 || c.toNat == 127) = false := by
    rw [List.any_eq_false]
    intro c hc
    rcases List.mem_cons.1 hc with h | h
    · subst h
      decide
    · have := hctl c h
      simpa using this
  have h2 : getSchemeFrom ('/' :: tl) [] ('/' :: tl) = .ok ([], '/' :: tl) := by
    simp [getSchemeFrom]
  have h3 : '%' ∉ ('/' :: tl).takeWhile (fun c => c != '?') := by
    intro h
    have h4 := List.takeWhile_subset _ h
    rcases List.mem_cons.1 h4 with h5 | h5
    · exact absurd h5 (by decide)
    · exact hpct h5
  unfold parseViaRequest
  rw [h1]
  simp only [h2]
  have h5 : ('/' :: tl).takeWhile (fun c => c != '?') =
      '/' :: tl.takeWhile (fun c => c != '?') := by
    simp [List.takeWhile]
  rw [h5] at h3
  rw [h5]
  simp [badEscape_none _ h3]

/-- What `validateUrl` adds to `url.ParseRequestURI`: it succeeds exactly on
the non-empty strings that the parser accepts, returns them unchanged, and
otherwise returns the empty string and an error whose only kind is
InvalidUrl. -/
theorem validateUrl_wrapper (L : Lib) (v : String) :
    ((validateUrl L v).2 = none ↔ v ≠ "" ∧ L.parseRequestURI v = none) ∧
    ((validateUrl L v).2 = none → validateUrl L v = (v, none)) ∧
    ((validateUrl L v).2 ≠ none → (validateUrl L v).1 = "" ∧
      ∃ e, (validateUrl L v).2 = some e ∧
        ∀ k, e.isKind k = decide (ErrKind.InvalidUrl = k)) := by
  by_cases hv : v = ""
  · subst hv
    have h : validateUrl L "" =
        ("", some (.wrapped "" (.sentinel .InvalidUrl) ". empty string")) := by
      simp [validateUrl]
    rw [h]
    refine ⟨by simp, by simp, fun _ => ⟨rfl, _, rfl, fun k => isKind_wrapped_sentinel _ _ _ k⟩⟩
  · cases hp : L.parseRequestURI v with
    | none =>
        rw [validateUrl_of_ok L v hv hp]
        exact ⟨by simp [hv], fun _ => rfl, fun h => absurd rfl h⟩
    | some err =>
        rw [validateUrl_of_error L v err hv hp]
        refine ⟨by simp, by simp, fun _ => ⟨rfl, _, rfl, fun k => isKind_wrapped_sentinel _ _ _ k⟩⟩

/-- C18, the code on a bare path: `url.ParseRequestURI` takes a request URI,
which is an absolute URI or an absolute path, so `validateUrl` accepts "/path",
and every absolute path without control character and percent sign, and
returns it unchanged, although it has neither scheme nor authority; it also
accepts "mailto:user@example.com", which has a scheme and no authority. The
strings "", "not a url" and "example.com" are rejected with the empty string
and an InvalidUrl error. -/
theorem validateUrl_accepts_bare_path (S : GoStd) :
    validateUrl (goLib S) "/path" = ("/path", none) ∧
    isAbsoluteURI "/path" = false ∧
    (∀ tl : List Char, (∀ c ∈ tl, ¬ (c.toNat < 32 ∨ c.toNat = 127)) → '%' ∉ tl →
      validateUrl (goLib S) (String.mk ('/' :: tl)) = (String.mk ('/' :: tl), none)) ∧
    validateUrl (goLib S) "mailto:user@example.com" = ("mailto:user@example.com", none) ∧
    (∀ v ∈ ["", "not a url", "example.com"],
      (validateUrl (goLib S) v).1 = "" ∧
      (validateUrl (goLib S) v).2.map (fun e => e.isKind .InvalidUrl) = some true) := by
  refine ⟨rfl, by decide, ?_, rfl, ?_⟩
  swap
  · intro v hv
    simp only [List.mem_cons, List.mem_singleton, List.mem_nil_iff, or_false] at hv
    rcases hv with h | h | h <;> subst h <;> exact ⟨rfl, rfl⟩
  intro tl hctl hpct
  apply validateUrl_of_ok
  · intro h
    have h2 := congrArg String.data h
    simp at h2
  · show goParseRequestURI S (String.mk ('/' :: tl)) = none
    unfold goParseRequestURI
    show (match parseViaRequest S ('/' :: tl) with
      | some err => some ("parse " ++ goQuote S (String.mk ('/' :: tl)) ++ ": " ++ err)
      | none => none) = none
    rw [parseViaRequest_absolute_path S tl hctl hpct]

/-- What `validateEmail` adds to `mail.ParseAddress`: it succeeds exactly on
the non-empty strings that the parser accepts, returns them unchanged, and
otherwise returns the empty string and an error whose only kind is
InvalidEmail. -/
theorem validateEmail_wrapper (L : Lib) (v : String) :
    ((validateEmail L v).2 = none ↔ v ≠ "" ∧ L.parseAddress v = none) ∧
    ((validateEmail L v).2 = none → validateEmail L v = (v, none)) ∧
    ((validateEmail L v).2 ≠ none → (validateEmail L v).1 = "" ∧
      ∃ e, (validateEmail L v).2 = some e ∧
        ∀ k, e.isKind k = decide (ErrKind.InvalidEmail = k)) := by
  by_cases hv : v = ""
  · subst hv
    have h : validateEmail L "" =
        ("", some (.wrapped "" (.sentinel .InvalidEmail) ". empty string")) := by
      simp [validateEmail]
    rw [h]
    refine ⟨by simp, by simp, fun _ => ⟨rfl, _, rfl, fun k => isKind_wrapped_sentinel _ _ _ k⟩⟩
  · cases hp : L.parseAddress v with
    | none =>
        have h : validateEmail L v = (v, none) := by simp [validateEmail, hv, hp]
        rw [h]
        exact ⟨by simp [hv], fun _ => rfl, fun h2 => absurd rfl h2⟩
    | some err =>
        have h : validateEmail L v = ("", some (.wrapped "" (.sentinel .InvalidEmail)
            (". unable to parse '" ++ v ++ "' as email address: " ++ err))) := by
          simp [validateEmail, hv, hp]
        rw [h]
        refine ⟨by simp, by simp, fun _ => ⟨rfl, _, rfl, fun k => isKind_wrapped_sentinel _ _ _ k⟩⟩

/-- A string that `mail.ParseAddress` rejects, and the empty string, make
`validateEmail` return the empty string and an InvalidEmail error. -/
theorem validateEmail_rejects (L : Lib) (s : String)
    (h : s = "" ∨ ∃ err, L.parseAddress s = some err) :
    (validateEmail L s).1 = "" ∧
    (validateEmail L s).2.map (fun e => e.isKind .InvalidEmail) = some true := by
  obtain ⟨h1, -, h3⟩ := validateEmail_wrapper L s
  have hne : (validateEmail L s).2 ≠ none := by
    intro hc
    obtain ⟨hs, hp⟩ := h1.1 hc
    rcases h with h | ⟨err, h⟩
    · exact hs h
    · rw [hp] at h
      cases h
  obtain ⟨hz, e, he, hk⟩ := h3 hne
  refine ⟨hz, ?_⟩
  rw [he]
  simp [hk]

/-- The description of `mail.ParseAddress` rejects a string that is of neither
plain form and has no `@` or ends with one. -/
theorem goParseAddress_rejects (S : GoStd) (v : String)
    (h1 : isPlainAddress v.toList = false) (h2 : isPlainNameAddr v.toList = false)
    (h3 : ¬ v.toList.contains '@' ∨ v.toList.getLast? = some '@') :
    ∃ err, goParseAddress S v = some err := by
  have h4 : ¬ (isPlainAddress v.toList = true ∨ isPlainNameAddr v.toList = true) := by
    rw [h1, h2]
    simp
  unfold goParseAddress
  rw [if_neg h4, if_pos h3]
  exact ⟨_, rfl⟩

/-- The description of `mail.ParseAddress` rejects a string that starts with
a plain address followed by a comma. -/
theorem goParseAddress_rejects_list (S : GoStd) (v : String)
    (h1 : isPlainAddress v.toList = false) (h2 : isPlainNameAddr v.toList = false)
    (h3 : isPlainAddress (v.toList.takeWhile (fun c => c != ',')) = true) :
    ∃ err, goParseAddress S v = some err := by
  have h4 : ¬ (isPlainAddress v.toList = true ∨ isPlainNameAddr v.toList = true) := by
    rw [h1, h2]
    simp
  unfold goParseAddress
  rw [if_neg h4]
  split_ifs
  · exact ⟨_, rfl⟩
  · exact ⟨_, rfl⟩

/-- C19, the code on a display name: `mail.ParseAddress` parses an RFC 5322
address, which may carry a display name, and `validateEmail` returns the raw
string: it accepts "Barry Gibbs <bg@example.com>", and every string made of a
plain display name and a plain address in angle brackets, and returns it
unchanged, although it is not a bare address of the form local-part@domain.
The rest of the claim holds: the bare addresses of the tests are accepted and
returned unchanged; "", "not an email", "userexample.com", "user@" and the two
addresses "user@example.com, other@example.com" are rejected with the empty
string and an InvalidEmail error; and for every parser a success returns the
raw string, a failure the empty string and an error whose only kind is
InvalidEmail. -/
theorem validateEmail_accepts_display_name (S : GoStd) :
    validateEmail (goLib S) "Barry Gibbs <bg@example.com>" =
      ("Barry Gibbs <bg@example.com>", none) ∧
    isBareAddress "Barry Gibbs <bg@example.com>" = false ∧
    (∀ v : String, isPlainNameAddr v.toList = true →
      validateEmail (goLib S) v = (v, none)) ∧
    (∀ s ∈ ["user@example.com", "user@mail.example.com", "user+tag@example.com",
        "first.last@example.com"],
      validateEmail (goLib S) s = (s, none) ∧ isBareAddress s = true) ∧
    (∀ s ∈ ["", "not an email", "userexample.com", "user@",
        "user@example.com, other@example.com"],
      (validateEmail (goLib S) s).1 = "" ∧
      (validateEmail (goLib S) s).2.map (fun e => e.isKind .InvalidEmail) = some true) ∧
    (∀ (L : Lib) (v : String),
      ((validateEmail L v).2 = none ↔ v ≠ "" ∧ L.parseAddress v = none) ∧
      ((validateEmail L v).2 = none → validateEmail L v = (v, none)) ∧
      ((validateEmail L v).2 ≠ none → (validateEmail L v).1 = "" ∧
        ∃ e, (validateEmail L v).2 = some e ∧
          ∀ k, e.isKind k = decide (ErrKind.InvalidEmail = k))) := by
  refine ⟨rfl, by decide, ?_, ?_, ?_, fun L v => validateEmail_wrapper L v⟩
  · intro v hv
    have hne : v ≠ "" := by
      intro h
      subst h
      exact absurd hv (by decide)
    have hp : (goLib S).parseAddress v = none := by
      show goParseAddress S v = none
      unfold goParseAddress
      rw [if_pos (Or.inr hv)]
    simp [validateEmail, hne, hp]
  · intro s hs
    simp only [List.mem_cons, List.mem_singleton, List.mem_nil_iff, or_false] at hs
    rcases hs with h | h | h | h <;> subst h <;> exact ⟨rfl, by decide⟩
  · intro s hs
    simp only [List.mem_cons, List.mem_singleton, List.mem_nil_iff, or_false] at hs
    rcases hs with h | h | h | h | h <;> subst h
    · exact validateEmail_rejects _ _ (Or.inl rfl)
    · exact validateEmail_rejects (goLib S) _
        (Or.inr (goParseAddress_rejects S "not an email" (by decide) (by decide) (by decide)))
    · exact validateEmail_rejects (goLib S) _
        (Or.inr (goParseAddress_rejects S "userexample.com" (by decide) (by decide) (by decide)))
    · exact validateEmail_rejects (goLib S) _
        (Or.inr (goParseAddress_rejects S "user@" (by decide) (by decide) (by decide)))
    · exact validateEmail_rejects (goLib S) _
        (Or.inr (goParseAddress_rejects_list S "user@example.com, other@example.com"
          (by decide) (by decide) (by decide)))

/-- The result of `validateInt` when `as.Int` fails. -/
theorem validateInt_of_error (L : Lib) (v err : String) (h : L.asInt v = .error err) :
    validateInt L v = (0, some (.wrapped "" (.sentinel .InvalidInt)
      (". unable to parse '" ++ v ++ "' as integer: " ++ err))) := by
  simp [validateInt, h]

/-- The result of `validateInt` when `as.Int` succeeds. -/
theorem validateInt_of_ok (L : Lib) (v : String) (n : Int) (h : L.asInt v = .ok n) :
    validateInt L v = (n, none) := by
  simp [validateInt, h]

/-- The test of `asInt` for digits is that of `intLiteral`. -/
theorem allDigits_iff (ds : List Char) :
    allDigits ds = true ↔ (ds ≠ [] ∧ ∀ c ∈ ds, c.isDigit = true) := by
  cases ds <;> simp [allDigits]

/-- The sign split of a list that starts with neither sign. -/
theorem splitSign_other (c : Char) (ds : List Char) (h1 : c ≠ '-') (h2 : c ≠ '+') :
    splitSign (c :: ds) = (false, c :: ds) := by
  unfold splitSign
  split
  · rename_i heq
    simp only [List.cons.injEq] at heq
    exact absurd heq.1 h1
  · rename_i heq
    simp only [List.cons.injEq] at heq
    exact absurd heq.1 h2
  · rfl

/-- The literal of `int` that a string writes, by its sign split. -/
theorem intLiteral_eq (v : String) :
    intLiteral v =
      (if (splitSign v.toList).2 ≠ [] ∧ ∀ c ∈ (splitSign v.toList).2, c.isDigit = true
          then some (digitsValue (splitSign v.toList).2) else none).bind
        (fun (m : Nat) =>
          if -(2 ^ 63 : Int) ≤ (if (splitSign v.toList).1 = true then -(m : Int) else (m : Int)) ∧
              (if (splitSign v.toList).1 = true then -(m : Int) else (m : Int)) < (2 ^ 63 : Int)
          then some (if (splitSign v.toList).1 = true then -(m : Int) else (m : Int))
          else none) := by
  unfold intLiteral
  cases hl : v.toList with
  | nil => simp [splitSign]
  | cons c ds =>
      by_cases h1 : c = '-'
      · subst h1
        simp [splitSign]
      · by_cases h2 : c = '+'
        · subst h2
          simp [splitSign]
        · rw [splitSign_other c ds h1 h2]
          have h3 : ∀ rest, c :: ds ≠ '-' :: rest := by
            intro rest h
            simp only [List.cons.injEq] at h
            exact h1 h.1
          have h4 : ∀ rest, c :: ds ≠ '+' :: rest := by
            intro rest h
            simp only [List.cons.injEq] at h
            exact h2 h.1
          split
          · rename_i rest heq
            exact absurd heq (h3 rest)
          · rename_i rest heq
            exact absurd heq (h4 rest)
          · simp

/-- The specified `as.Int` accepts exactly the literals of the type `int`, with
their value. -/
theorem asInt_ok_iff (v : String) (n : Int) : asInt v = .ok n ↔ intLiteral v = some n := by
  rw [intLiteral_eq]
  unfold asInt
  simp only
  by_cases hd : allDigits (splitSign v.toList).2 = true
  · have hd2 := (allDigits_iff _).1 hd
    rw [if_pos hd, if_pos hd2, Option.some_bind]
    by_cases hr : -(2 ^ 63 : Int) ≤ (if (splitSign v.toList).1 = true
          then -(digitsValue (splitSign v.toList).2 : Int)
          else (digitsValue (splitSign v.toList).2 : Int)) ∧
        (if (splitSign v.toList).1 = true
          then -(digitsValue (splitSign v.toList).2 : Int)
          else (digitsValue (splitSign v.toList).2 : Int)) < (2 ^ 63 : Int)
    · rw [if_pos hr, if_pos hr]
      simp only [Except.ok.injEq, Option.some.injEq]
    · rw [if_neg hr, if_neg hr]
      constructor
      · intro h
        cases h
      · intro h
        cases h
  · have hd2 : ¬ ((splitSign v.toList).2 ≠ [] ∧ ∀ c ∈ (splitSign v.toList).2,
        c.isDigit = true) := fun h => hd ((allDigits_iff _).2 h)
    rw [if_neg hd, if_neg hd2]
    constructor
    · intro h
      cases h
    · intro h
      cases h

/-- C20: whatever `as.Int` is, `validateInt` succeeds with `n` exactly when
`as.Int` does, and otherwise returns 0 and an error whose only kind is
InvalidInt. With `as.Int` as the specification describes it, `validateInt`
succeeds exactly on the base-10 literals of the signed type `int` (an optional
sign, decimal digits, a value that fits `int`) and returns the integer written:
"42" gives 42, "-100" gives -100, "0" gives 0; every other string, such as "",
"3.14" and "not a number", gives 0 and an InvalidInt error. -/
theorem validateInt_accepts_iff (v : String) :
    (∀ L : Lib,
      (∀ n, L.asInt v = .ok n → validateInt L v = (n, none)) ∧
      ((validateInt L v).2 = none ↔ ∃ n, L.asInt v = .ok n) ∧
      ((validateInt L v).2 ≠ none → (validateInt L v).1 = 0 ∧
        ∃ e, (validateInt L v).2 = some e ∧
          ∀ k, e.isKind k = decide (ErrKind.InvalidInt = k))) ∧
    ((validateInt specLib v).2 = none ↔ (intLiteral v).isSome = true) ∧
    (∀ n, intLiteral v = some n → validateInt specLib v = (n, none)) ∧
    (intLiteral v = none → (validateInt specLib v).1 = 0 ∧
      (validateInt specLib v).2.map (fun e => e.isKind .InvalidInt) = some true) ∧
    validateInt specLib "42" = (42, none) ∧
    validateInt specLib "-100" = (-100, none) ∧
    validateInt specLib "0" = (0, none) ∧
    (∀ s ∈ ["", "3.14", "not a number", "4 2", "0x10"], intLiteral s = none) := by
  have hgen : ∀ L : Lib,
      (∀ n, L.asInt v = .ok n → validateInt L v = (n, none)) ∧
      ((validateInt L v).2 = none ↔ ∃ n, L.asInt v = .ok n) ∧
      ((validateInt L v).2 ≠ none → (validateInt L v).1 = 0 ∧
        ∃ e, (validateInt L v).2 = some e ∧
          ∀ k, e.isKind k = decide (ErrKind.InvalidInt = k)) := by
    intro L
    refine ⟨fun n h => validateInt_of_ok L v n h, ?_, ?_⟩
    · cases h : L.asInt v with
      | error err =>
          rw [validateInt_of_error L v err h]
          simp
      | ok n =>
          rw [validateInt_of_ok L v n h]
          simp
    · cases h : L.asInt v with
      | error err =>
          rw [validateInt_of_error L v err h]
          intro _
          exact ⟨rfl, _, rfl, fun k => isKind_wrapped_sentinel _ _ _ k⟩
      | ok n =>
          rw [validateInt_of_ok L v n h]
          intro hh
          exact absurd rfl hh
  have hok : ∀ n, intLiteral v = some n → validateInt specLib v = (n, none) := by
    intro n hn
    exact validateInt_of_ok specLib v n ((asInt_ok_iff v n).2 hn)
  have hnone : intLiteral v = none → ∃ err, specLib.asInt v = .error err := by
    intro hn
    cases h : specLib.asInt v with
    | error err => exact ⟨err, rfl⟩
    | ok n =>
        have h2 : asInt v = .ok n := h
        rw [asInt_ok_iff, hn] at h2
        cases h2
  refine ⟨hgen, ?_, hok, ?_, by decide, by decide, by decide, by decide⟩
  · cases hl : intLiteral v with
    | none =>
        obtain ⟨err, he⟩ := hnone hl
        rw [validateInt_of_error specLib v err he]
        simp
    | some n =>
        rw [hok n hl]
        simp
  · intro hl
    obtain ⟨err, he⟩ := hnone hl
    rw [validateInt_of_error specLib v err he]
    refine ⟨rfl, ?_⟩
    simp [isKind_wrapped_sentinel]

/-- Witness of C20: the literal "-100". -/
theorem validateInt_accepts_iff_witness :
    intLiteral "-100" = some (-100) ∧ validateInt specLib "-100" = (-100, none) :=
  ⟨by decide, (validateInt_accepts_iff "-100").2.2.1 (-100) (by decide)⟩

/-- Witness of C18: the bare path "/api/v1" with the sample filling of the open
parts, by the statement on absolute paths. -/
theorem validateUrl_accepts_bare_path_witness :
    validateUrl (goLib sampleStd) (String.mk ('/' :: "api/v1".toList)) =
      (String.mk ('/' :: "api/v1".toList), none) :=
  (validateUrl_accepts_bare_path sampleStd).2.2.1 "api/v1".toList (by decide) (by decide)

/-- Witness of C19: the display name and address "Jane Doe <jane@example.com>"
in the library with the sample filling of the open parts, by the statement on
plain display names. -/
theorem validateEmail_accepts_display_name_witness :
    isPlainNameAddr "Jane Doe <jane@example.com>".toList = true ∧
    validateEmail (goLib sampleStd) "Jane Doe <jane@example.com>" =
      ("Jane Doe <jane@example.com>", none) ∧
    isBareAddress "Jane Doe <jane@example.com>" = false :=
  ⟨by decide,
    (validateEmail_accepts_display_name sampleStd).2.2.1 "Jane Doe <jane@example.com>"
      (by decide), by decide⟩

/-- A wrapper is of the kinds of the error that it wraps. -/
theorem isKind_wrapped (pre post : String) (e : GoError) (k : ErrKind) :
    (GoError.wrapped pre e post).isKind k = e.isKind k := by
  unfold GoError.isKind
  rw [GoError.Is]
  simp

/-- Every validation kind is a resolution kind. -/
theorem resolutionKinds_of_validationKinds (k : ErrKind) (h : k ∈ validationKinds) :
    k ∈ resolutionKinds := by
  revert h
  cases k <;> decide

/-- Every error that `loadVariable` returns for a variable without custom
validator is of exactly one kind, a resolution kind. -/
theorem loadVariable_error_kind {T : Type} [GoValue T] (L : Lib) (env : Env)
    (v : Variable T) (hv : v.Validator = none) (x : T) (e : GoError)
    (h : loadVariable L env v = .ret x (some e)) :
    ∃ k ∈ resolutionKinds, ∀ k2, e.isKind k2 = decide (k = k2) := by
  by_cases hn : v.Name = ""
  · simp only [loadVariable, hn, if_true, Outcome.ret.injEq, Option.some.injEq] at h
    rw [← h.2]
    exact ⟨.MissingName, by decide, fun k2 => isKind_sentinel _ k2⟩
  · by_cases hno : noValue env v.Name
    · rw [loadVariable_noValue L env v hn hno] at h
      cases hd : v.Default with
      | some d => simp [hd] at h
      | none =>
          simp only [hd] at h
          split_ifs at h
          · simp at h
          · simp only [Outcome.ret.injEq, Option.some.injEq] at h
            rw [← h.2]
            exact ⟨.MissingValue, by decide, fun k2 => isKind_sentinel _ k2⟩
    · obtain ⟨value, hval, hne⟩ := exists_value_of_not_noValue env v.Name hno
      rw [loadVariable_value L env v value hn hval hne, hv] at h
      cases hvd : validate L v value with
      | panic p => simp [hvd] at h
      | ret y err =>
          cases err with
          | none => simp [hvd] at h
          | some e2 =>
              simp only [hvd, Outcome.ret.injEq, Option.some.injEq] at h
              obtain ⟨k, hk, hall⟩ := validate_error_kind L v value y e2 hvd
              rw [← h.2]
              exact ⟨k, resolutionKinds_of_validationKinds k hk, hall⟩

/-- C21: for a variable without custom validator, every error that
`loadVariable` returns, and every error that `Variable.Load` returns, is of
exactly one resolution kind (MissingName, MissingValue, InvalidInt,
InvalidFloat, InvalidBool, InvalidPort, InvalidUrl, InvalidEmail, UnknownType,
NotInOneof) and of no other kind at all. A port that `as.Int` does not parse
is InvalidPort and not InvalidInt. -/
theorem loadVariable_error_one_kind {T : Type} [GoValue T] (quote : String → String)
    (L : Lib) (env : Env) (v : Variable T) (hv : v.Validator = none) :
    (∀ x e, loadVariable L env v = .ret x (some e) →
      ∃ k ∈ resolutionKinds, ∀ k2, e.isKind k2 = decide (k = k2)) ∧
    (∀ x e, v.Load quote L env = .ret x (some e) →
      ∃ k ∈ resolutionKinds, ∀ k2, e.isKind k2 = decide (k = k2)) ∧
    (∀ raw err, L.asInt raw = .error err →
      ∃ e, validatePort L raw = (0, some e) ∧
        e.isKind .InvalidPort = true ∧ e.isKind .InvalidInt = false) ∧
    (loadVariable specLib (envOf "TEST_VAR" "abc") requiredPort).failsWith .InvalidPort
      = true ∧
    (loadVariable specLib (envOf "TEST_VAR" "abc") requiredPort).failsWith .InvalidInt
      = false := by
  refine ⟨fun x e h => loadVariable_error_kind L env v hv x e h, ?_, ?_, by decide, by decide⟩
  · intro x e h
    cases h2 : loadVariable L env v with
    | panic p => simp [variable_Load_of_panic quote L env v p h2] at h
    | ret y err =>
        cases err with
        | none => simp [variable_Load_of_ok quote L env v y h2] at h
        | some e1 =>
            rw [variable_Load_of_error quote L env v y e1 h2] at h
            simp only [Outcome.ret.injEq, Option.some.injEq] at h
            obtain ⟨k, hk, hall⟩ := loadVariable_error_kind L env v hv y e1 h2
            refine ⟨k, hk, fun k2 => ?_⟩
            rw [← h.2, isKind_wrapped, hall]
  · intro raw err h
    refine ⟨_, validatePort_of_error L raw err h, ?_, ?_⟩
    · rw [isKind_wrapped_sentinel]
      decide
    · rw [isKind_wrapped_sentinel]
      decide

/-- Witness of C21: the required port TEST_VAR set to "abc". -/
theorem loadVariable_error_one_kind_witness :
    requiredPort.Validator = none ∧
    loadVariable specLib (envOf "TEST_VAR" "abc") requiredPort = .ret 0 (some portNotInt) ∧
    ∃ k ∈ resolutionKinds, ∀ k2, portNotInt.isKind k2 = decide (k = k2) :=
  ⟨rfl, by decide,
    (loadVariable_error_one_kind (goQuote sampleStd) specLib (envOf "TEST_VAR" "abc")
      requiredPort rfl).1 0 portNotInt (by decide)⟩

/-- C23: `validateType` gives the same value and the same error, or the same
panic, for an alias as for the type name it stands for: "str" and the empty
name as "string", "integer" as "int", "bool" as "boolean", for every raw string,
every `T` and every library. -/
theorem validateType_alias {T : Type} [GoValue T] (L : Lib) (v : String) :
    (validateType L "str" v : Outcome T) = validateType L "string" v ∧
    (validateType L "" v : Outcome T) = validateType L "string" v ∧
    (validateType L "integer" v : Outcome T) = validateType L "int" v ∧
    (validateType L "bool" v : Outcome T) = validateType L "boolean" v := by
  refine ⟨?_, ?_, ?_, ?_⟩ <;> simp [validateType]

/-- C26: when the environment holds no value for the non-empty name, two
variables that agree on `Name`, `Default` and `Optional` give the same result,
whatever their `Type`, `Oneof` and `Validator` are. So a default is returned
without validation: a port default of 0 is returned with no error, and so is a
default of an unknown type name that is not among the choices and that the
validator would refuse. -/
theorem loadVariable_noValue_ignores_rest {T : Type} [GoValue T] (L : Lib) (env : Env)
    (v w : Variable T) (hname : v.Name ≠ "") (hno : noValue env v.Name)
    (hN : w.Name = v.Name) (hD : w.Default = v.Default) (hO : w.Optional = v.Optional) :
    loadVariable L env w = loadVariable L env v ∧
    loadVariable specLib emptyEnv portDefaultZero = .ret 0 none ∧
    (validatePort specLib "0").2 ≠ none ∧
    loadVariable specLib emptyEnv oddDefault = .ret 5 none ∧
    slicesContains oddDefault.Oneof 5 = false ∧
    (validateType specLib oddDefault.Type_ "5" : Outcome Int).failsWith .UnknownType
      = true := by
  refine ⟨?_, by decide, by decide, by decide, by decide, by decide⟩
  rw [loadVariable_noValue L env v hname hno,
    loadVariable_noValue L env w (hN ▸ hname) (hN ▸ hno), hD, hO]

/-- Witness of C26: TEST_VAR unset, for the port with default 0 and for a
variable with the same name and default but another type, choices and
validator. -/
theorem loadVariable_noValue_ignores_rest_witness :
    portDefaultZero.Name ≠ "" ∧ noValue emptyEnv portDefaultZero.Name ∧
    loadVariable specLib emptyEnv
        (⟨"TEST_VAR", "unknown", some 0, false, "", [80],
            some (fun _ => (0, some customErr))⟩ : Variable Int) =
      loadVariable specLib emptyEnv portDefaultZero :=
  ⟨by decide, Or.inl rfl,
    (loadVariable_noValue_ignores_rest specLib emptyEnv portDefaultZero
      (⟨"TEST_VAR", "unknown", some 0, false, "", [80],
          some (fun _ => (0, some customErr))⟩ : Variable Int)
      (by decide) (Or.inl rfl) rfl rfl rfl).1⟩

/-- C27: the value that a custom validator returns is the result of
`loadVariable`, whether it is among the choices or not: when built-in
validation gives `x` and the validator gives `(y, nil)`, the result is `y`. The
int variable with the single choice 10 and the doubling validator, with "10" in
the environment, gives 20, which is not among its choices. -/
theorem loadVariable_validator_escapes_oneof {T : Type} [GoValue T] (L : Lib) (env : Env)
    (v : Variable T) (f : T → T × Option GoError) (value : String) (x y : T)
    (hname : v.Name ≠ "") (hval : env v.Name = some value) (hne : value ≠ "")
    (hf : v.Validator = some f) (hx : validate L v value = .ret x none)
    (hy : f x = (y, none)) :
    loadVariable L env v = .ret y none ∧
    loadVariable specLib (envOf "TEST_VAR" "10") tenDoubled = .ret 20 none ∧
    tenDoubled.Oneof ≠ [] ∧ slicesContains tenDoubled.Oneof 20 = false := by
  refine ⟨?_, by decide, by decide, by decide⟩
  rw [loadVariable_value L env v value hname hval hne, hx, hf]
  simp only [hy]

/-- Witness of C27: the single choice 10, the doubling validator and "10" in
the environment. -/
theorem loadVariable_validator_escapes_oneof_witness :
    validate specLib tenDoubled "10" = .ret 10 none ∧
    loadVariable specLib (envOf "TEST_VAR" "10") tenDoubled = .ret 20 none :=
  ⟨by decide,
    (loadVariable_validator_escapes_oneof specLib (envOf "TEST_VAR" "10") tenDoubled
      (fun v => (v * 2, none)) "10" 10 20 (by decide) (by decide) (by decide) rfl
      (by decide) rfl).1⟩

/-- For an any-typed variable whose type name is that of an int, a float or a
bool, the validated value is not a string. -/
theorem validateType_any_not_string (L : Lib) (t v : String) (x : Any)
    (err : Option GoError) (ht : t ∈ nonStringTypes)
    (h : (validateType L t v : Outcome Any) = .ret x err) : ∀ s, x ≠ Any.str s := by
  simp only [nonStringTypes, List.mem_cons, List.mem_singleton, List.mem_nil_iff,
    or_false] at ht
  intro s hs
  subst hs
  rcases ht with h1 | h1 | h1 | h1 | h1 | h1 <;> subst h1 <;>
    simp [validateType, assertReturn, GoValue.assert] at h

/-- A value that is not a string equals no string, by the `==` of `any`. -/
theorem anyEq_string_false (x : Any) (hx : ∀ s, x ≠ Any.str s) (s : String) :
    Any.eq x (Any.str s) = false := by
  cases x with
  | str s2 => exact absurd rfl (hx s2)
  | nil => rfl
  | int n => rfl
  | float f => rfl
  | bool b => rfl

/-- C30: for an any-typed descriptor whose choices are not empty and are all
strings and whose type name is int, integer, float, boolean, bool or port,
`validate` fails with NotInOneof on every raw value that passes type
validation: the validated value is an int, a float or a bool, which `==` makes
different from every string. With the type int and the choices "80" and "443",
the raw value "80" is validated as the int 80 and rejected. -/
theorem validate_any_string_choices (L : Lib) (w : Variable Any) (v : String) (x : Any)
    (hT : w.Type_ ∈ nonStringTypes) (hO : w.Oneof ≠ [])
    (hS : ∀ c ∈ w.Oneof, ∃ s, c = Any.str s)
    (hx : validateType L w.Type_ v = .ret x none) :
    validate L w v =
      .ret Any.nil (some (.wrappedChoices (.sentinel .NotInOneof) w.Oneof)) ∧
    (validate L w v).failsWith .NotInOneof = true ∧
    (∀ c ∈ w.Oneof, Any.eq x c = false) ∧
    (validateType specLib varPortChoices.Type_ "80" : Outcome Any) =
      .ret (Any.int 80) none ∧
    (validate specLib varPortChoices "80").failsWith .NotInOneof = true := by
  have hne : ∀ c ∈ w.Oneof, Any.eq x c = false := by
    intro c hc
    obtain ⟨s, hs⟩ := hS c hc
    rw [hs]
    exact anyEq_string_false x (validateType_any_not_string L _ v x none hT hx) s
  have hcont : slicesContains w.Oneof x = false := by
    unfold slicesContains
    rw [List.any_eq_false]
    intro c hc
    have := hne c hc
    simpa [GoValue.eq] using this
  have hc : w.Oneof.length > 0 ∧ ¬ slicesContains w.Oneof x = true :=
    ⟨List.length_pos.2 hO, by simp [hcont]⟩
  have heq : validate L w v =
      .ret Any.nil (some (.wrappedChoices (.sentinel .NotInOneof) w.Oneof)) := by
    rw [validate_of_typeOk L w v x hx, if_pos hc]
    simp [GoValue.zero, GoValue.box]
  refine ⟨heq, ?_, hne, by decide, by decide⟩
  rw [heq]
  simp [Outcome.failsWith, isKind_wrappedChoices_sentinel]

/-- Witness of C30: the type int with the choices "80" and "443", on the raw
value "443". -/
theorem validate_any_string_choices_witness :
    varPortChoices.Type_ ∈ nonStringTypes ∧ varPortChoices.Oneof ≠ [] ∧
    (validateType specLib varPortChoices.Type_ "443" : Outcome Any) =
      .ret (Any.int 443) none ∧
    (validate specLib varPortChoices "443").failsWith .NotInOneof = true :=
  ⟨by decide, by decide, by decide,
    (validate_any_string_choices specLib varPortChoices "443" (Any.int 443) (by decide)
      (by decide)
      (by
        intro c hc
        simp only [varPortChoices, List.mem_cons, List.mem_singleton, List.mem_nil_iff,
          or_false] at hc
        rcases hc with h | h
        · exact ⟨"80", h⟩
        · exact ⟨"443", h⟩)
      (by decide)).2.1⟩

/-- The first pair of a list with a given key, when every pair with that key
has the same value. -/
theorem lookup_of_unique (l : List (String × Any)) (k : String) (y : Any)
    (hmem : ∃ p ∈ l, p.1 = k) (hall : ∀ p ∈ l, p.1 = k → p.2 = y) :
    l.lookup k = some y := by
  induction l with
  | nil =>
      obtain ⟨p, hp, _⟩ := hmem
      simp at hp
  | cons a tl ih =>
      obtain ⟨a1, a2⟩ := a
      by_cases hk : k = a1
      · have h2 : a2 = y := hall (a1, a2) (List.mem_cons_self _ _) hk.symm
        simp [List.lookup, hk, h2]
      · have hb : (k == a1) = false := by simpa using hk
        simp only [List.lookup, hb]
        apply ih
        · obtain ⟨p, hp, hpk⟩ := hmem
          rcases List.mem_cons.1 hp with h3 | h3
          · exact absurd (by rw [← hpk, h3]) hk
          · exact ⟨p, h3, hpk⟩
        · exact fun p hp => hall p (List.mem_cons_of_mem _ hp)

/-- A field that holds a write, all the writes into it being of one value,
holds that value. -/
theorem field_of_unique (t : Struct) (name : String) (y : Any)
    (hmem : (name, y) ∈ t) (hall : ∀ p ∈ t, p.1 = name → p.2 = y) :
    t.field name = some y := by
  unfold Struct.field
  apply lookup_of_unique
  · exact ⟨(name, y), List.mem_reverse.2 hmem, rfl⟩
  · exact fun p hp => hall p (List.mem_reverse.1 hp)

/-- The turn of a field that parses, and whose variable has no name or
resolves to nil or to a value that `SetFrom` accepts, ends without error. -/
theorem write_isSome_of_resolved (quote : String → String) (L : Lib) (env : Env)
    (g : Field) (w : Variable Any) (hp : g.parsed = .ok w)
    (h : w.Name = "" ∨
      ∃ y, w.Load quote L env = .ret y none ∧ (y = Any.nil ∨ g.SetFrom y = none)) :
    (g.write quote L env).isSome = true := by
  unfold Field.write
  simp only [hp]
  by_cases hn : w.Name = ""
  · simp [hn]
  · rcases h with h | ⟨y, hy, hs⟩
    · exact absurd h hn
    · simp only [hn, if_false, hy]
      by_cases hnil : y = Any.nil
      · simp [hnil]
      · rcases hs with hs | hs
        · exact absurd hs hnil
        · simp [hnil, hs]

/-- The write of the turn of a field whose variable resolves to a value other
than nil, when the turn ends without error. -/
theorem write_of_value (quote : String → String) (L : Lib) (env : Env)
    (g : Field) (w : Variable Any) (y : Any) (hp : g.parsed = .ok w) (hn : w.Name ≠ "")
    (hy : w.Load quote L env = .ret y none) (hnil : y ≠ Any.nil)
    (hs : (g.write quote L env).isSome = true) :
    g.write quote L env = some [(g.Name, y)] := by
  unfold Field.write at hs ⊢
  simp only [hp, hn, if_false, hy, hnil] at hs ⊢
  by_cases h : g.SetFrom y = none
  · simp [h]
  · simp [h] at hs

/-- C24: when every field parses and every named field resolves without error
to nil or to a value that `SetFrom` accepts, `Load` returns no error and the
struct made of the writes of the fields, in order. Each named field whose
variable resolves to a value other than nil is written with exactly the value
that `Variable.Load` returns for its descriptor, and holds it when the names of
the fields are distinct, whatever the other fields are. That value is the
default when the environment holds no value for the variable, and the value
that `validate` returns when it holds one and there is no custom validator. -/
theorem load_all_resolved (quote : String → String) (L : Lib) (env : Env)
    (fields : List Field)
    (h : ∀ g ∈ fields, ∃ w, g.parsed = .ok w ∧ (w.Name = "" ∨
      ∃ y, w.Load quote L env = .ret y none ∧ (y = Any.nil ∨ g.SetFrom y = none))) :
    Load quote L env (.ok fields) = .ret (writes quote L env fields) none ∧
    (∀ g ∈ fields, ∀ w y, g.parsed = .ok w → w.Name ≠ "" →
      w.Load quote L env = .ret y none → y ≠ Any.nil →
        (g.Name, y) ∈ writes quote L env fields ∧
        ((fields.map Field.Name).Nodup →
          (writes quote L env fields).field g.Name = some y)) ∧
    (∀ (w : Variable Any) (d : Any), w.Name ≠ "" → noValue env w.Name →
      w.Default = some d → w.Load quote L env = .ret d none) ∧
    (∀ (w : Variable Any) (value : String) (y : Any), w.Name ≠ "" →
      env w.Name = some value → value ≠ "" → w.Validator = none →
        (w.Load quote L env = .ret y none ↔ validate L w value = .ret y none)) := by
  have hw : ∀ g ∈ fields, (g.write quote L env).isSome = true := by
    intro g hg
    obtain ⟨w, hp, hr⟩ := h g hg
    exact write_isSome_of_resolved quote L env g w hp hr
  refine ⟨?_, ?_, ?_, ?_⟩
  · have h2 := loadFields_append_of_writes quote L env fields [] [] hw
    rw [List.append_nil] at h2
    unfold Load load
    simp only [h2, loadFields, List.nil_append]
  · intro g hg w y hp hn hy hnil
    have hwr := write_of_value quote L env g w y hp hn hy hnil (hw g hg)
    have hmem : (g.Name, y) ∈ writes quote L env fields := by
      unfold writes
      rw [List.mem_flatten]
      exact ⟨[(g.Name, y)], List.mem_filterMap.2 ⟨g, hg, hwr⟩, List.mem_singleton.2 rfl⟩
    refine ⟨hmem, fun hnd => ?_⟩
    apply field_of_unique _ _ _ hmem
    intro p hpm hpn
    unfold writes at hpm
    rw [List.mem_flatten] at hpm
    obtain ⟨ws, hws, hp2⟩ := hpm
    rw [List.mem_filterMap] at hws
    obtain ⟨g2, hg2, hw2⟩ := hws
    have hname : g2.Name = g.Name :=
      (write_name quote L env g2 ws hw2 p hp2).symm.trans hpn
    have hgg : g2 = g := List.inj_on_of_nodup_map hnd hg2 hg hname
    rw [hgg, hwr, Option.some.injEq] at hw2
    rw [← hw2, List.mem_singleton] at hp2
    rw [hp2]
  · intro w d hn hno hd
    apply variable_Load_of_ok
    rw [loadVariable_noValue L env w hn hno, hd]
  · intro w value y hn hval hne hv
    have hl := loadVariable_value L env w value hn hval hne
    rw [hv] at hl
    cases hvd : validate L w value with
    | panic q =>
        rw [hvd] at hl
        rw [variable_Load_of_panic quote L env w q hl]
    | ret x err =>
        cases err with
        | some e =>
            rw [hvd] at hl
            rw [variable_Load_of_error quote L env w _ e hl]
            simp
        | none =>
            rw [hvd] at hl
            rw [variable_Load_of_ok quote L env w x hl]

/-- Witness of C24: the struct with the fields Name and Port, APP_NAME set to
"my-app" and APP_PORT unset with the default 3000. -/
theorem load_all_resolved_witness :
    Load (goQuote sampleStd) specLib appEnv (.ok [fieldName, fieldPortDefault]) =
      .ret [("Name", Any.str "my-app"), ("Port", Any.int 3000)] none ∧
    Struct.field [("Name", Any.str "my-app"), ("Port", Any.int 3000)] "Port" =
      some (Any.int 3000) ∧
    Load (goQuote sampleStd) specLib appEnv (.ok [fieldName, fieldPortDefault]) =
      .ret (writes (goQuote sampleStd) specLib appEnv [fieldName, fieldPortDefault]) none :=
  ⟨by decide, by decide,
    (load_all_resolved (goQuote sampleStd) specLib appEnv [fieldName, fieldPortDefault]
      (by
        intro g hg
        simp only [List.mem_cons, List.mem_singleton, List.mem_nil_iff, or_false] at hg
        rcases hg with hg | hg
        · subst hg
          exact ⟨varAppName, rfl, Or.inr ⟨Any.str "my-app", by decide, Or.inr rfl⟩⟩
        · subst hg
          exact ⟨_, rfl, Or.inr ⟨Any.int 3000, by decide, Or.inr rfl⟩⟩)).1⟩

/-- A field whose turn makes no write can be taken out of the fields without
changing the loop of `load`. -/
theorem loadFields_skip_of_no_write (quote : String → String) (L : Lib) (env : Env)
    (pre post : List Field) (f : Field) (t : Struct)
    (h : f.write quote L env = some []) :
    loadFields quote L env (pre ++ f :: post) t = loadFields quote L env (pre ++ post) t := by
  induction pre generalizing t with
  | nil =>
      rw [List.nil_append, loadFields_cons_of_write quote L env f post t [] h,
        List.append_nil, List.nil_append]
  | cons g pre ih =>
      show loadFields quote L env (g :: (pre ++ f :: post)) t =
        loadFields quote L env (g :: (pre ++ post)) t
      simp only [loadFields, ih]

/-- An optional any-typed variable with a name, without default and without
value in the environment resolves to nil. -/
theorem variable_Load_optional_nil (quote : String → String) (L : Lib) (env : Env)
    (w : Variable Any) (hname : w.Name ≠ "") (hd : w.Default = none)
    (ho : w.Optional = true) (hno : noValue env w.Name) :
    w.Load quote L env = .ret Any.nil none := by
  apply variable_Load_of_ok
  rw [loadVariable_noValue L env w hname hno, hd]
  simp [ho, GoValue.zero]

/-- The turn of a field whose variable resolves to nil makes no write,
whatever the `SetFrom` of the field is. -/
theorem write_of_nil (quote : String → String) (L : Lib) (env : Env)
    (g : Field) (w : Variable Any) (hp : g.parsed = .ok w)
    (hy : w.Load quote L env = .ret Any.nil none) :
    g.write quote L env = some [] := by
  unfold Field.write
  simp only [hp, hy]
  split_ifs <;> rfl

/-- C25: in `Load`, a field whose descriptor has a name, is optional, has no
default and has no value in the environment resolves to nil; its turn makes no
write and no error, so that `Load` returns what it returns without the field;
`SetFrom` is not called, `Load` returning the same with any other `SetFrom` on
the field; and when no other field has its name, the field holds its zero value
in the struct that `Load` returns. -/
theorem load_optional_unset (quote : String → String) (L : Lib) (env : Env)
    (pre post : List Field) (f : Field) (w : Variable Any)
    (hf : f.parsed = .ok w) (hname : w.Name ≠ "") (hd : w.Default = none)
    (ho : w.Optional = true) (hno : noValue env w.Name) :
    w.Load quote L env = .ret Any.nil none ∧
    Load quote L env (.ok [f]) = .ret [] none ∧
    Load quote L env (.ok (pre ++ f :: post)) = Load quote L env (.ok (pre ++ post)) ∧
    (∀ setter : Any → Option String,
      Load quote L env (.ok (pre ++ ⟨f.Name, f.parsed, setter⟩ :: post)) =
        Load quote L env (.ok (pre ++ f :: post))) ∧
    ((∀ g ∈ pre ++ post, g.Name ≠ f.Name) →
      ∀ t err, Load quote L env (.ok (pre ++ f :: post)) = .ret t err →
        t.field f.Name = none) := by
  have hl := variable_Load_optional_nil quote L env w hname hd ho hno
  have hskip : ∀ f2 : Field, f2.parsed = .ok w → ∀ pre2 : List Field,
      Load quote L env (.ok (pre2 ++ f2 :: post)) = Load quote L env (.ok (pre2 ++ post)) := by
    intro f2 hf2 pre2
    unfold Load load
    exact loadFields_skip_of_no_write quote L env pre2 post f2 []
      (write_of_nil quote L env f2 w hf2 hl)
  refine ⟨hl, ?_, hskip f hf pre, fun setter => ?_, fun hnames t err ht => ?_⟩
  · show loadFields quote L env [f] [] = .ret [] none
    rw [loadFields_cons_of_write quote L env f [] [] [] (write_of_nil quote L env f w hf hl)]
    simp [loadFields]
  · rw [hskip ⟨f.Name, f.parsed, setter⟩ hf pre, hskip f hf pre]
  · rw [hskip f hf pre] at ht
    apply field_none_of_no_write
    intro p hp hpn
    have h3 := loadFields_writes_into quote L env (pre ++ post) [] t err ht p hp
    rcases h3 with h3 | ⟨g, hg, hgn⟩
    · simp at h3
    · exact hnames g hg (hgn.trans hpn)

/-- Witness of C25: the struct with the fields Name and Port, the field Port
optional with a `SetFrom` that takes no value, APP_NAME set and APP_PORT
unset. -/
theorem load_optional_unset_witness :
    noValue appEnv varOptionalPort.Name ∧
    Load (goQuote sampleStd) specLib appEnv (.ok ([fieldName] ++ fieldOptionalPort :: [])) =
      Load (goQuote sampleStd) specLib appEnv (.ok ([fieldName] ++ [])) ∧
    Load (goQuote sampleStd) specLib appEnv (.ok [fieldName, fieldOptionalPort]) =
      .ret [("Name", Any.str "my-app")] none ∧
    Struct.field [("Name", Any.str "my-app")] "Port" = none :=
  ⟨Or.inl rfl,
    (load_optional_unset (goQuote sampleStd) specLib appEnv [fieldName] [] fieldOptionalPort
      varOptionalPort rfl (by decide) rfl rfl (Or.inl rfl)).2.2.1, by decide, by decide⟩

/-- No validation kind is MissingName. -/
theorem validationKinds_not_missingName (k : ErrKind) (h : k ∈ validationKinds) :
    decide (k = ErrKind.MissingName) = false := by
  revert h
  cases k <;> decide

/-- No kind of the errors that `load` makes itself is MissingName. -/
theorem structKinds_not_missingName (k : ErrKind) (h : k ∈ structKinds) :
    decide (k = ErrKind.MissingName) = false := by
  revert h
  cases k <;> decide

/-- For a variable with a name and without custom validator, no error that
`loadVariable` returns is of kind MissingName. -/
theorem loadVariable_named_error (L : Lib) (env : Env) (v : Variable Any)
    (hn : v.Name ≠ "") (hv : v.Validator = none) (x : Any) (e : GoError)
    (h : loadVariable L env v = .ret x (some e)) : e.isKind .MissingName = false := by
  by_cases hno : noValue env v.Name
  · rw [loadVariable_noValue L env v hn hno] at h
    cases hd : v.Default with
    | some d => simp [hd] at h
    | none =>
        simp only [hd] at h
        split_ifs at h
        · simp at h
        · simp only [Outcome.ret.injEq, Option.some.injEq] at h
          rw [← h.2, isKind_sentinel]
          decide
  · obtain ⟨value, hval, hne⟩ := exists_value_of_not_noValue env v.Name hno
    rw [loadVariable_value L env v value hn hval hne, hv] at h
    cases hvd : validate L v value with
    | panic p => simp [hvd] at h
    | ret y err =>
        cases err with
        | none => simp [hvd] at h
        | some e2 =>
            simp only [hvd, Outcome.ret.injEq, Option.some.injEq] at h
            obtain ⟨k, hk, hall⟩ := validate_error_kind L v value y e2 hvd
            rw [← h.2, hall]
            exact validationKinds_not_missingName k hk

/-- Every error that the loop of `load` returns is one that `load` makes
itself, of kind InvalidTag, Unexpected or SetField, or is the error that
`Variable.Load` returns for the descriptor, with a name, of one of the
fields. -/
theorem loadFields_error_source (quote : String → String) (L : Lib) (env : Env)
    (fields : List Field) (t t2 : Struct) (e : GoError)
    (h : loadFields quote L env fields t = .ret t2 (some e)) :
    (∃ k ∈ structKinds, ∃ post, e = .wrapped "" (.sentinel k) post) ∨
    (∃ g ∈ fields, ∃ w x, g.parsed = .ok w ∧ w.Name ≠ "" ∧
      w.Load quote L env = .ret x (some e)) := by
  induction fields generalizing t with
  | nil => simp [loadFields] at h
  | cons g rest ih =>
      have hrec : ∀ t3, loadFields quote L env rest t3 = .ret t2 (some e) →
          (∃ k ∈ structKinds, ∃ post, e = .wrapped "" (.sentinel k) post) ∨
          (∃ g2 ∈ g :: rest, ∃ w x, g2.parsed = .ok w ∧ w.Name ≠ "" ∧
            w.Load quote L env = .ret x (some e)) := by
        intro t3 h3
        rcases ih t3 h3 with h4 | ⟨g2, hg2, h4⟩
        · exact Or.inl h4
        · exact Or.inr ⟨g2, List.mem_cons_of_mem _ hg2, h4⟩
      simp only [loadFields] at h
      cases hp : g.parsed with
      | error err =>
          cases err with
          | compileTag msg =>
              simp only [hp, Outcome.ret.injEq, Option.some.injEq] at h
              exact Or.inl ⟨.InvalidTag, by decide, _, h.2.symm⟩
          | other msg =>
              simp only [hp, Outcome.ret.injEq, Option.some.injEq] at h
              exact Or.inl ⟨.Unexpected, by decide, _, h.2.symm⟩
      | ok w =>
          simp only [hp] at h
          by_cases hn : w.Name = ""
          · simp only [hn, if_true] at h
            exact hrec t h
          · simp only [hn, if_false] at h
            cases hl : w.Load quote L env with
            | panic q => simp [hl] at h
            | ret y err =>
                cases err with
                | some e2 =>
                    simp only [hl, Outcome.ret.injEq, Option.some.injEq] at h
                    refine Or.inr ⟨g, List.mem_cons_self _ _, w, y, hp, hn, ?_⟩
                    rw [← h.2]
                    exact hl
                | none =>
                    simp only [hl] at h
                    by_cases hy : y = Any.nil
                    · simp only [hy, if_true] at h
                      exact hrec t h
                    · simp only [hy, if_false] at h
                      cases hs : g.SetFrom y with
                      | some msg =>
                          simp only [hs, Outcome.ret.injEq, Option.some.injEq] at h
                          exact Or.inl ⟨.SetField, by decide, _, h.2.symm⟩
                      | none =>
                          simp only [hs] at h
                          exact hrec _ h

/-- C28: every error that `Load` returns is one that `load` makes itself, of
kind UnsupportedType, InvalidTag, Unexpected or SetField, or is the error that
`Variable.Load` returns for the descriptor of one of the fields, a descriptor
with a non-empty name. When no descriptor has a custom validator, which is the
case of the descriptors built from the tags, `Load` returns no error of kind
MissingName. A field whose descriptor has no name gives no error, whereas the
resolution of its descriptor fails with MissingName. -/
theorem load_never_missingName (quote : String → String) (L : Lib) (env : Env)
    (inspected : Except String (List Field)) :
    (∀ t e, Load quote L env inspected = .ret t (some e) →
      (∃ k ∈ structKinds, ∃ post, e = .wrapped "" (.sentinel k) post) ∨
      (∃ fields, inspected = .ok fields ∧ ∃ g ∈ fields, ∃ w x, g.parsed = .ok w ∧
        w.Name ≠ "" ∧ w.Load quote L env = .ret x (some e))) ∧
    ((∀ fields, inspected = .ok fields →
        ∀ g ∈ fields, ∀ w, g.parsed = .ok w → w.Validator = none) →
      (Load quote L env inspected).failsWith .MissingName = false) ∧
    (∀ (f : Field) (w : Variable Any), f.parsed = .ok w → w.Name = "" →
      Load quote L env (.ok [f]) = .ret [] none ∧
      (w.Load quote L env).failsWith .MissingName = true) := by
  have hsrc : ∀ t e, Load quote L env inspected = .ret t (some e) →
      (∃ k ∈ structKinds, ∃ post, e = .wrapped "" (.sentinel k) post) ∨
      (∃ fields, inspected = .ok fields ∧ ∃ g ∈ fields, ∃ w x, g.parsed = .ok w ∧
        w.Name ≠ "" ∧ w.Load quote L env = .ret x (some e)) := by
    intro t e h
    cases inspected with
    | error msg =>
        simp only [Load, load, Outcome.ret.injEq, Option.some.injEq] at h
        exact Or.inl ⟨.UnsupportedType, by decide, _, h.2.symm⟩
    | ok fields =>
        rcases loadFields_error_source quote L env fields [] t e h with h2 | h2
        · exact Or.inl h2
        · exact Or.inr ⟨fields, rfl, h2⟩
  refine ⟨hsrc, fun hV => ?_, fun f w hf hname => ⟨?_, ?_⟩⟩
  · cases hL : Load quote L env inspected with
    | panic q => rfl
    | ret t err =>
        cases err with
        | none => rfl
        | some e =>
            show e.isKind .MissingName = false
            rcases hsrc t e hL with ⟨k, hk, post, he⟩ | ⟨fields, hi, g, hg, w, x, hp, hn, hl⟩
            · rw [he, isKind_wrapped_sentinel]
              exact structKinds_not_missingName k hk
            · have hv := hV fields hi g hg w hp
              cases hlv : loadVariable L env w with
              | panic q =>
                  rw [variable_Load_of_panic quote L env w q hlv] at hl
                  cases hl
              | ret y err2 =>
                  cases err2 with
                  | none =>
                      rw [variable_Load_of_ok quote L env w y hlv] at hl
                      cases hl
                  | some e2 =>
                      rw [variable_Load_of_error quote L env w y e2 hlv] at hl
                      simp only [Outcome.ret.injEq, Option.some.injEq] at hl
                      rw [← hl.2, isKind_wrapped]
                      exact loadVariable_named_error L env w hn hv y e2 hlv
  · show loadFields quote L env [f] [] = .ret [] none
    simp only [loadFields, hf, hname, if_true]
  · have hlv : loadVariable L env w = .ret GoValue.zero (some (.sentinel .MissingName)) := by
      simp only [loadVariable, hname, if_true]
    rw [variable_Load_of_error quote L env w _ _ hlv]
    show (GoError.wrapped _ (.sentinel .MissingName) "").isKind .MissingName = true
    rw [isKind_wrapped_sentinel]
    decide

/-- Witness of C28: the struct with the fields Name, Ignore and Port, APP_NAME
set and APP_PORT unset: the error of `Load` is the MissingValue of APP_PORT,
and the field Ignore, without name, gives none. -/
theorem load_never_missingName_witness :
    (Load (goQuote sampleStd) specLib appEnv
      (.ok [fieldName, fieldIgnore, fieldPort])).failsWith .MissingName = false ∧
    (Load (goQuote sampleStd) specLib appEnv
      (.ok [fieldName, fieldIgnore, fieldPort])).failsWith .MissingValue = true :=
  ⟨(load_never_missingName (goQuote sampleStd) specLib appEnv
      (.ok [fieldName, fieldIgnore, fieldPort])).2.1
      (by
        intro fields hf g hg w hp
        cases hf
        simp only [List.mem_cons, List.mem_singleton, List.mem_nil_iff, or_false] at hg
        rcases hg with hg | hg | hg <;> subst hg <;> cases hp <;> rfl), by decide⟩

/-- C22: each of the five methods of a builder returns a builder whose variable
is that of the receiver but for the one field that the method sets: `Optional`
sets Optional to true, `Oneof` sets Oneof to the choices, `Default` sets
Default to the value, `Desc` sets Description, `Validate` sets Validator; Name,
Type and the other fields are those of the receiver. -/
theorem builder_sets_one_field {T : Type} (b : VariableBuilder T) (choices : List T)
    (value : T) (desc : String) (validator : Option (T → T × Option GoError)) :
    (b.Optional.Variable.Optional = true ∧
      b.Optional.Variable.Name = b.Variable.Name ∧
      b.Optional.Variable.Type_ = b.Variable.Type_ ∧
      b.Optional.Variable.Default = b.Variable.Default ∧
      b.Optional.Variable.Description = b.Variable.Description ∧
      b.Optional.Variable.Oneof = b.Variable.Oneof ∧
      b.Optional.Variable.Validator = b.Variable.Validator) ∧
    ((b.Oneof choices).Variable.Oneof = choices ∧
      (b.Oneof choices).Variable.Name = b.Variable.Name ∧
      (b.Oneof choices).Variable.Type_ = b.Variable.Type_ ∧
      (b.Oneof choices).Variable.Default = b.Variable.Default ∧
      (b.Oneof choices).Variable.Optional = b.Variable.Optional ∧
      (b.Oneof choices).Variable.Description = b.Variable.Description ∧
      (b.Oneof choices).Variable.Validator = b.Variable.Validator) ∧
    ((b.Default value).Variable.Default = some value ∧
      (b.Default value).Variable.Name = b.Variable.Name ∧
      (b.Default value).Variable.Type_ = b.Variable.Type_ ∧
      (b.Default value).Variable.Optional = b.Variable.Optional ∧
      (b.Default value).Variable.Description = b.Variable.Description ∧
      (b.Default value).Variable.Oneof = b.Variable.Oneof ∧
      (b.Default value).Variable.Validator = b.Variable.Validator) ∧
    ((b.Desc desc).Variable.Description = desc ∧
      (b.Desc desc).Variable.Name = b.Variable.Name ∧
      (b.Desc desc).Variable.Type_ = b.Variable.Type_ ∧
      (b.Desc desc).Variable.Default = b.Variable.Default ∧
      (b.Desc desc).Variable.Optional = b.Variable.Optional ∧
      (b.Desc desc).Variable.Oneof = b.Variable.Oneof ∧
      (b.Desc desc).Variable.Validator = b.Variable.Validator) ∧
    ((b.Validate validator).Variable.Validator = validator ∧
      (b.Validate validator).Variable.Name = b.Variable.Name ∧
      (b.Validate validator).Variable.Type_ = b.Variable.Type_ ∧
      (b.Validate validator).Variable.Default = b.Variable.Default ∧
      (b.Validate validator).Variable.Optional = b.Variable.Optional ∧
      (b.Validate validator).Variable.Description = b.Variable.Description ∧
      (b.Validate validator).Variable.Oneof = b.Variable.Oneof) :=
  ⟨⟨rfl, rfl, rfl, rfl, rfl, rfl, rfl⟩, ⟨rfl, rfl, rfl, rfl, rfl, rfl, rfl⟩,
    ⟨rfl, rfl, rfl, rfl, rfl, rfl, rfl⟩, ⟨rfl, rfl, rfl, rfl, rfl, rfl, rfl⟩,
    ⟨rfl, rfl, rfl, rfl, rfl, rfl, rfl⟩⟩

/-- A call of a method of a builder keeps the name and the type name. -/
theorem call_keeps_type {T : Type} (vb : VariableBuilder T) (c : BuilderCall T) :
    (vb.call c).Variable.Type_ = vb.Variable.Type_ ∧
    (vb.call c).Variable.Name = vb.Variable.Name := by
  cases c <;> exact ⟨rfl, rfl⟩

/-- A chain of calls of methods of a builder keeps the name and the type
name. -/
theorem chain_keeps_type {T : Type} (vb : VariableBuilder T) (calls : List (BuilderCall T)) :
    (vb.chain calls).Variable.Type_ = vb.Variable.Type_ ∧
    (vb.chain calls).Variable.Name = vb.Variable.Name := by
  induction calls generalizing vb with
  | nil => exact ⟨rfl, rfl⟩
  | cons c rest ih =>
      have h1 := ih (vb.call c)
      have h2 := call_keeps_type vb c
      exact ⟨h1.1.trans h2.1, h1.2.trans h2.2⟩

/-- When `validateType` returns, `validate` returns. -/
theorem validate_returns {T : Type} [GoValue T] (L : Lib) (w : Variable T) (v : String)
    (h : (validateType L w.Type_ v : Outcome T).returns = true) :
    (validate L w v).returns = true := by
  cases hvt : (validateType L w.Type_ v : Outcome T) with
  | panic q => simp [hvt, Outcome.returns] at h
  | ret y err =>
      cases err with
      | some e => simp [validate, hvt, Outcome.returns]
      | none =>
          rw [validate_of_typeOk L w v y hvt]
          split_ifs <;> rfl

/-- When `validateType` returns on every raw value, `loadVariable` returns. -/
theorem loadVariable_returns {T : Type} [GoValue T] (L : Lib) (env : Env) (w : Variable T)
    (h : ∀ v, (validateType L w.Type_ v : Outcome T).returns = true) :
    (loadVariable L env w).returns = true := by
  cases hl : loadVariable L env w with
  | ret y err => rfl
  | panic q =>
      exfalso
      by_cases hn : w.Name = ""
      · simp [loadVariable, hn] at hl
      · by_cases hno : noValue env w.Name
        · rw [loadVariable_noValue L env w hn hno] at hl
          cases hd : w.Default with
          | some d => simp [hd] at hl
          | none =>
              simp only [hd] at hl
              split_ifs at hl
        · obtain ⟨value, hval, hne⟩ := exists_value_of_not_noValue env w.Name hno
          rw [loadVariable_value L env w value hn hval hne] at hl
          have hv := validate_returns L w value (h value)
          cases hvd : validate L w value with
          | panic q2 => simp [hvd, Outcome.returns] at hv
          | ret y err =>
              cases err with
              | some e => simp [hvd] at hl
              | none =>
                  simp only [hvd] at hl
                  cases hf : w.Validator with
                  | none => simp [hf] at hl
                  | some f =>
                      simp only [hf] at hl
                      split at hl <;> cases hl

/-- When `validateType` returns on every raw value, `Variable.Load` returns. -/
theorem variable_Load_returns {T : Type} [GoValue T] (quote : String → String) (L : Lib)
    (env : Env) (w : Variable T)
    (h : ∀ v, (validateType L w.Type_ v : Outcome T).returns = true) :
    (w.Load quote L env).returns = true := by
  have h2 := loadVariable_returns L env w h
  cases hl : loadVariable L env w with
  | panic q => simp [hl, Outcome.returns] at h2
  | ret y err =>
      cases err with
      | some e => rw [variable_Load_of_error quote L env w y e hl]; rfl
      | none => rw [variable_Load_of_ok quote L env w y hl]; rfl

/-- C29: for a variable made by one of the constructors String, Int, Float,
Boolean, Port, Url and Email and any chain of calls of Optional, Oneof,
Default, Desc and Validate, the type assertion of `validateType` succeeds on
every raw value: `validateType` returns the raw string for String, and what
`validateInt`, `validateFloat`, `validateBoolean`, `validatePort`,
`validateUrl`, `validateEmail` return for the six others, in the value type of
the variable; and `Variable.Load` returns a value or an error, in every
environment, rather than panics. -/
theorem constructed_never_panics (quote : String → String) (L : Lib) (env : Env)
    (name v : String) :
    (∀ calls : List (BuilderCall String),
      validateType L ((Primitive.String name).chain calls).Variable.Type_ v =
        (.ret v none : Outcome String) ∧
      (((Primitive.String name).chain calls).Variable.Load quote L env).returns = true) ∧
    (∀ calls : List (BuilderCall Int),
      validateType L ((Primitive.Int name).chain calls).Variable.Type_ v =
        (.ret (validateInt L v).1 (validateInt L v).2 : Outcome Int) ∧
      (((Primitive.Int name).chain calls).Variable.Load quote L env).returns = true) ∧
    (∀ calls : List (BuilderCall Float64),
      validateType L ((Primitive.Float name).chain calls).Variable.Type_ v =
        (.ret (validateFloat L v).1 (validateFloat L v).2 : Outcome Float64) ∧
      (((Primitive.Float name).chain calls).Variable.Load quote L env).returns = true) ∧
    (∀ calls : List (BuilderCall Bool),
      validateType L ((Primitive.Boolean name).chain calls).Variable.Type_ v =
        (.ret (validateBoolean L v).1 (validateBoolean L v).2 : Outcome Bool) ∧
      (((Primitive.Boolean name).chain calls).Variable.Load quote L env).returns = true) ∧
    (∀ calls : List (BuilderCall Int),
      validateType L ((Primitive.Port name).chain calls).Variable.Type_ v =
        (.ret (validatePort L v).1 (validatePort L v).2 : Outcome Int) ∧
      (((Primitive.Port name).chain calls).Variable.Load quote L env).returns = true) ∧
    (∀ calls : List (BuilderCall String),
      validateType L ((Primitive.Url name).chain calls).Variable.Type_ v =
        (.ret (validateUrl L v).1 (validateUrl L v).2 : Outcome String) ∧
      (((Primitive.Url name).chain calls).Variable.Load quote L env).returns = true) ∧
    (∀ calls : List (BuilderCall String),
      validateType L ((Primitive.Email name).chain calls).Variable.Type_ v =
        (.ret (validateEmail L v).1 (validateEmail L v).2 : Outcome String) ∧
      (((Primitive.Email name).chain calls).Variable.Load quote L env).returns = true) := by
  have hload : ∀ {T : Type} [GoValue T] (vb : VariableBuilder T)
      (calls : List (BuilderCall T)),
      (∀ v2, (validateType L vb.Variable.Type_ v2 : Outcome T).returns = true) →
      ((vb.chain calls).Variable.Load quote L env).returns = true := by
    intro T _ vb calls h
    apply variable_Load_returns
    rw [(chain_keeps_type vb calls).1]
    exact h
  refine ⟨fun calls => ⟨?_, hload _ calls fun v2 => ?_⟩,
    fun calls => ⟨?_, hload _ calls fun v2 => ?_⟩,
    fun calls => ⟨?_, hload _ calls fun v2 => ?_⟩,
    fun calls => ⟨?_, hload _ calls fun v2 => ?_⟩,
    fun calls => ⟨?_, hload _ calls fun v2 => ?_⟩,
    fun calls => ⟨?_, hload _ calls fun v2 => ?_⟩,
    fun calls => ⟨?_, hload _ calls fun v2 => ?_⟩⟩
  all_goals first
    | rw [(chain_keeps_type _ calls).1]
      simp [validateType, assertReturn, GoValue.assert, Primitive.String, Primitive.Int,
        Primitive.Float, Primitive.Boolean, Primitive.Port, Primitive.Url, Primitive.Email]
    | simp [validateType, assertReturn, GoValue.assert, Outcome.returns, Primitive.String,
        Primitive.Int, Primitive.Float, Primitive.Boolean, Primitive.Port, Primitive.Url,
        Primitive.Email]

end Environ
